import Mathlib

/-!
Shallow embedding of the UBELEZA backend (src/backend/app.py, src/backend/models.py).

Modelling conventions:
* SQL `Numeric(10,2)` (Python `Decimal`) values are modelled as exact rationals `ℚ`;
  all operations the handlers perform on them (+, -, max, comparison, sum, division)
  are exact on both.
* SQL `Integer` columns are modelled as `Int`, primary keys as `Nat`.
* Timestamps are opaque: modelled as `Nat` tokens.  `datetime.utcnow()` becomes the
  `now` field carried by each request payload; `datetime.fromisoformat` on a
  client-supplied timestamp is modelled as an already-parsed `Option Nat`.
* JSON scalar input values are `JVal` (number, string or null); a JSON object field
  is `Option JVal` where `none` means the key is absent.  Python `dict.get` collapses
  an explicit JSON null to `None`, modelled by `jget`.
* The database session is a `Store` (lists of rows in insertion order plus the next
  primary-key value per table).  A handler returns `(Resp, Store)`; an error return
  leaves the store unchanged (uncommitted session changes are discarded at request
  teardown, matching the transactional model).
* `query.first()` returns the first row in insertion order; `order_by` is modelled
  with the stable `List.insertionSort`.
-/

namespace Ubeleza

/-- A JSON scalar value as delivered by `request.get_json()`:
a number (int/float, modelled exactly), a string, or null. -/
inductive JVal where
  | jnum (q : ℚ)
  | jstr (s : String)
  | jnull
deriving DecidableEq, Repr

/-- `data.get(key)`: an explicit JSON null and an absent key both give Python `None`. -/
def jget (v : Option JVal) : Option JVal :=
  match v with
  | some JVal.jnull => none
  | some v => some v
  | none => none

/-- Python truthiness of a JSON scalar (`if x:`): 0, "" and None are falsy. -/
def truthy : JVal → Bool
  | JVal.jnum q => q ≠ 0
  | JVal.jstr s => s ≠ ""
  | JVal.jnull => false

/-- Decimal digit value of a character, if it is a digit. -/
def digitVal (c : Char) : Option Nat :=
  if c.isDigit then some (c.toNat - 48) else none

def digitsValAux : Nat → List Char → Option Nat
  | acc, [] => some acc
  | acc, c :: cs =>
    match digitVal c with
    | some d => digitsValAux (acc * 10 + d) cs
    | none => none

/-- Value of a non-empty all-digit character list. -/
def digitsVal : List Char → Option Nat
  | [] => none
  | cs => digitsValAux 0 cs

/-- Python `int(str)`: optional sign followed by digits; anything else raises ValueError. -/
def parseIntStr (s : String) : Option Int :=
  match s.data with
  | '-' :: cs => (digitsVal cs).map (fun n => -(n : Int))
  | '+' :: cs => (digitsVal cs).map (fun n => (n : Int))
  | cs => (digitsVal cs).map (fun n => (n : Int))

/-- Value of `<intPart>.<fracPart>` digit lists (either may be empty, not both). -/
def decOfParts (ip fp : List Char) : Option ℚ :=
  if ip = [] ∧ fp = [] then none
  else
    match (if ip = [] then some 0 else digitsVal ip),
          (if fp = [] then some 0 else digitsVal fp) with
    | some i, some f => some ((i : ℚ) + (f : ℚ) / (10 : ℚ) ^ fp.length)
    | _, _ => none

/-- Python `Decimal(str)`: optional sign, digits, optional decimal point and digits. -/
def parseDecStr (s : String) : Option ℚ :=
  let body := fun (cs : List Char) (sign : ℚ) =>
    match cs.span (fun c => c ≠ '.') with
    | (ip, []) => (decOfParts ip []).map (fun q => sign * q)
    | (ip, _ :: fp) => (decOfParts ip fp).map (fun q => sign * q)
  match s.data with
  | '-' :: cs => body cs (-1)
  | '+' :: cs => body cs 1
  | cs => body cs 1

/-- Truncation toward zero, as Python `int()` applied to a number. -/
def ratTrunc (q : ℚ) : Int := q.num.tdiv (q.den : Int)

/-- Python `int(x)` on a JSON scalar: numbers truncate, strings parse,
`None` raises TypeError (`none`). -/
def pyInt : JVal → Option Int
  | JVal.jnum q => some (ratTrunc q)
  | JVal.jstr s => parseIntStr s
  | JVal.jnull => none

/-- Python `Decimal(x)` on a JSON scalar: numbers convert, strings parse
(InvalidOperation on failure), `None` raises TypeError (`none`). -/
def pyDecimal : JVal → Option ℚ
  | JVal.jnum q => some q
  | JVal.jstr s => parseDecStr s
  | JVal.jnull => none

/-- A row of the `current_cycle` table (models.CurrentCycle). -/
structure Cycle where
  id : Nat
  gas_cost : ℚ
  start_km : Option Int
  end_km : Option Int
  fuel_price_per_liter : Option ℚ
  is_active : Bool
  start_time : Nat
  cumulative_earnings : ℚ
  cumulative_race_count : Int
  current_period_earnings : ℚ
  current_period_race_count : Int
deriving DecidableEq, Repr

/-- A row of the `earnings` table (models.Earning). -/
structure Earning where
  id : Nat
  cycle_id : Nat
  timestamp : Nat
  amount : ℚ
deriving DecidableEq, Repr

/-- A row of the `expenses` table (models.Expense). -/
structure Expense where
  id : Nat
  cycle_id : Nat
  timestamp : Nat
  category : String
  amount : ℚ
deriving DecidableEq, Repr

/-- The full-cycle archive payload built by `finalize_cycle`
(`archiveType` is the constant string "Ciclo Completo").
The `summary_kmPerLiter` / `summary_costPerKm` strings ("N/A" when undefined)
are modelled as the optional exact value being formatted. -/
structure FullPayload where
  archiveDate : Nat
  cycleEarnings : ℚ
  gasCost : ℚ
  expensesList : List Expense
  cycleRaceCount : Int
  startKM : Option Int
  endKM : Option Int
  fuelPricePerLiter : Option ℚ
  note : String
  summary_totalOtherExpenses : ℚ
  summary_profit : ℚ
  summary_kmDriven : Int
  summary_kmPerLiter : Option ℚ
  summary_costPerKm : Option ℚ
  periodEndDate : Nat
  earningsDetails : List Earning
deriving DecidableEq, Repr

/-- The partial-period archive payload built by `archive_period`
(`archiveType` is the constant string "Período Parcial"). -/
structure PeriodPayloadDoc where
  archiveDate : Nat
  periodEarnings : ℚ
  periodRaceCount : Int
  periodEndDate : Nat
  earningsDetails : List Earning
  note : String
  gasCostSnapshot : ℚ
  cycleProfitSnapshot : ℚ
deriving DecidableEq, Repr

/-- The free-form `archive_data` JSONB document: one of the two payload shapes,
tagged by its `archiveType` string. -/
inductive ArchiveData where
  | cicloCompleto (p : FullPayload)
  | periodoParcial (p : PeriodPayloadDoc)
deriving DecidableEq, Repr

/-- The `archiveType` string stored in the document. -/
def ArchiveData.archiveType : ArchiveData → String
  | ArchiveData.cicloCompleto _ => "Ciclo Completo"
  | ArchiveData.periodoParcial _ => "Período Parcial"

/-- The `earningsDetails` list stored in the document. -/
def ArchiveData.earningsDetails : ArchiveData → List Earning
  | ArchiveData.cicloCompleto p => p.earningsDetails
  | ArchiveData.periodoParcial p => p.earningsDetails

/-- A row of the `archives` table (models.Archive). -/
structure ArchiveRow where
  id : Nat
  archive_data : ArchiveData
  archive_date : Nat
deriving DecidableEq, Repr

/-- `Archive.to_dict`: the stored document with `db_id` and the row's
`archive_date` merged in (the row date overwrites the payload's `archiveDate`). -/
structure ArchiveView where
  db_id : Nat
  archiveDate : Nat
  data : ArchiveData
deriving DecidableEq, Repr

def archiveToDict (a : ArchiveRow) : ArchiveView :=
  { db_id := a.id, archiveDate := a.archive_date, data := a.archive_data }

/-- The database: rows in insertion order plus the next primary key per table. -/
structure Store where
  cycles : List Cycle
  earnings : List Earning
  expenses : List Expense
  archives : List ArchiveRow
  nextCycleId : Nat
  nextEarningId : Nat
  nextExpenseId : Nat
  nextArchiveId : Nat
deriving DecidableEq, Repr

/-- The empty database. -/
def initStore : Store :=
  { cycles := [], earnings := [], expenses := [], archives := [],
    nextCycleId := 1, nextEarningId := 1, nextExpenseId := 1, nextArchiveId := 1 }

/-- `CurrentCycle(is_active=False)` with the column defaults of models.py. -/
def defaultCycle (id : Nat) : Cycle :=
  { id := id, gas_cost := 0, start_km := none, end_km := none,
    fuel_price_per_liter := none, is_active := false, start_time := 0,
    cumulative_earnings := 0, cumulative_race_count := 0,
    current_period_earnings := 0, current_period_race_count := 0 }

/-- Commit an updated cycle row back to its table (identified by primary key). -/
def updateCycle (s : Store) (c : Cycle) : Store :=
  { s with cycles := s.cycles.map (fun x => if x.id = c.id then c else x) }

/-- `CurrentCycle.query.filter_by(is_active=True).first()`. -/
def get_active_cycle (s : Store) : Option Cycle :=
  s.cycles.find? (fun c => c.is_active)

/-- `get_or_create_active_cycle`: returns the active cycle, or creates (and commits)
a new inactive cycle when none is active. -/
def get_or_create_active_cycle (s : Store) : Cycle × Store :=
  match get_active_cycle s with
  | some c => (c, s)
  | none =>
    let c := defaultCycle s.nextCycleId
    (c, { s with cycles := s.cycles ++ [c], nextCycleId := s.nextCycleId + 1 })

/-- `cycle.earnings.order_by(Earning.timestamp.asc()).all()`. -/
def earningsAsc (s : Store) (cid : Nat) : List Earning :=
  (s.earnings.filter (fun e => e.cycle_id = cid)).insertionSort
    (fun a b => a.timestamp ≤ b.timestamp)

/-- `cycle.expenses.order_by(Expense.timestamp.asc()).all()`. -/
def expensesAsc (s : Store) (cid : Nat) : List Expense :=
  (s.expenses.filter (fun e => e.cycle_id = cid)).insertionSort
    (fun a b => a.timestamp ≤ b.timestamp)

/-- `Archive.query.order_by(Archive.archive_date.desc()).all()`, as `to_dict` views. -/
def archivesDesc (s : Store) : List ArchiveView :=
  ((s.archives.insertionSort (fun a b => b.archive_date ≤ a.archive_date)).map
    archiveToDict)

/-- An HTTP response: success or error, with status code (payload carried
separately where a claim needs it). -/
inductive Resp where
  | ok (code : Nat)
  | err (code : Nat) (msg : String)
deriving DecidableEq, Repr

/-- The JSON body of `GET /api/state`. -/
structure StateView where
  currentCycle : Cycle
  earningsList : List Earning
  expenseList : List Expense
  archives : List ArchiveView
deriving DecidableEq, Repr

/-- `get_app_state` (the `/api/state` handler): get-or-create the cycle
(a write when no cycle is active), then serialize the state. -/
def get_app_state (s : Store) : StateView × Store :=
  let (cycle, s1) := get_or_create_active_cycle s
  ({ currentCycle := cycle,
     earningsList := earningsAsc s1 cycle.id,
     expenseList := expensesAsc s1 cycle.id,
     archives := archivesDesc s1 }, s1)

/-- `POST /api/state` body fields (absent key = `none`); `now` is the
request-time `datetime.utcnow()`. -/
structure StartPayload where
  gas_cost : Option JVal
  start_km : Option JVal
  fuel_price : Option JVal
  now : Nat
deriving DecidableEq, Repr

/-- `start_cycle`'s defensive deactivation: the first active cycle, if any,
has its `is_active` flag cleared. -/
def deactivateFirstActive (s : Store) : Store :=
  match get_active_cycle s with
  | some existing => updateCycle s { existing with is_active := false }
  | none => s

/-- The committed effect of a successful `start_cycle`: deactivate the first
active cycle (if any), then insert the new active cycle. -/
def startFresh (gas_cost : ℚ) (start_km : Option Int) (fuel_price : Option ℚ)
    (now : Nat) (s : Store) : Store :=
  let s1 := deactivateFirstActive s
  let newCycle : Cycle :=
    { id := s1.nextCycleId, gas_cost := gas_cost, start_km := start_km,
      end_km := none, fuel_price_per_liter := fuel_price, is_active := true,
      start_time := now, cumulative_earnings := 0, cumulative_race_count := 0,
      current_period_earnings := 0, current_period_race_count := 0 }
  { s1 with cycles := s1.cycles ++ [newCycle], nextCycleId := s1.nextCycleId + 1 }

/-- `start_cycle` (`POST /api/cycles/start`).  Note the truthiness tests on
`start_km`/`fuel_price` (`if start_km_str else None`): a zero value is stored
as null.  Their conversions sit outside the try block, so a conversion failure
is an uncaught exception (HTTP 500, nothing committed). -/
def start_cycle (body : Option StartPayload) (s : Store) : Resp × Store :=
  match body with
  | none => (Resp.err 400 "Payload inválido", s)
  | some p =>
    let gas_cost_str := jget p.gas_cost
    let start_km_str := jget p.start_km
    let fuel_price_str := jget p.fuel_price
    match (match gas_cost_str with
           | none => some (0 : ℚ)
           | some v => pyDecimal v) with
    | none => (Resp.err 400 "Valor inválido para custo da gasolina", s)
    | some gas_cost =>
      if gas_cost ≤ 0 then (Resp.err 400 "Custo da gasolina deve ser positivo", s)
      else
        match (match start_km_str with
               | some v => if truthy v then (pyInt v).map some else some none
               | none => some none) with
        | none => (Resp.err 500 "Internal Server Error", s)
        | some start_km =>
          match (match fuel_price_str with
                 | some v => if truthy v then (pyDecimal v).map some else some none
                 | none => some none) with
          | none => (Resp.err 500 "Internal Server Error", s)
          | some fuel_price =>
            (Resp.ok 201, startFresh gas_cost start_km fuel_price p.now s)

/-- `POST /api/cycles/finalize` body (`note` defaults to `""`). -/
structure FinalizePayload where
  end_km : Option JVal
  note : String
  now : Nat
deriving DecidableEq, Repr

/-- The success path of `finalize_cycle`: build the full-cycle archive document,
insert it, deactivate the cycle, commit, and re-serialize the state (which
creates a fresh inactive cycle, since none is active any more). -/
def finalizeCommit (p : FinalizePayload) (cycle : Cycle) (end_km : Option Int)
    (s : Store) : Resp × Store :=
  let cycle1 := { cycle with end_km := end_km }
  let earnings_list := earningsAsc s cycle.id
  let expenses_list := expensesAsc s cycle.id
  let total_other_expenses := (expenses_list.map (fun e => e.amount)).sum
  let profit := cycle1.cumulative_earnings - cycle1.gas_cost - total_other_expenses
  let km_driven : Int := match cycle1.start_km, cycle1.end_km with
    | some sk, some ek => if sk ≤ ek then ek - sk else 0
    | _, _ => 0
  let km_per_liter : Option ℚ :=
    match cycle1.fuel_price_per_liter with
    | some fp =>
      if 0 < km_driven ∧ 0 < cycle1.gas_cost ∧ 0 < fp then
        let liters_used := cycle1.gas_cost / fp
        if 0 < liters_used then some ((km_driven : ℚ) / liters_used) else none
      else none
    | none => none
  let cost_per_km : Option ℚ :=
    if 0 < km_driven then
      some ((cycle1.gas_cost + total_other_expenses) / (km_driven : ℚ))
    else none
  let payload : FullPayload := {
    archiveDate := p.now,
    cycleEarnings := cycle1.cumulative_earnings,
    gasCost := cycle1.gas_cost,
    expensesList := expenses_list,
    cycleRaceCount := cycle1.cumulative_race_count,
    startKM := cycle1.start_km,
    endKM := cycle1.end_km,
    fuelPricePerLiter := (match cycle1.fuel_price_per_liter with
      | some fp => if fp = 0 then none else some fp
      | none => none),
    note := p.note,
    summary_totalOtherExpenses := total_other_expenses,
    summary_profit := profit,
    summary_kmDriven := km_driven,
    summary_kmPerLiter := km_per_liter,
    summary_costPerKm := cost_per_km,
    periodEndDate := p.now,
    earningsDetails := earnings_list }
  let row : ArchiveRow :=
    { id := s.nextArchiveId, archive_data := ArchiveData.cicloCompleto payload,
      archive_date := p.now }
  let s1 := { s with archives := s.archives ++ [row],
                     nextArchiveId := s.nextArchiveId + 1 }
  let s2 := updateCycle s1 { cycle1 with is_active := false }
  let (_, s3) := get_app_state s2
  (Resp.ok 200, s3)

/-- `finalize_cycle` (`POST /api/cycles/finalize`).  When `end_km` is absent it
defaults to the cycle's `start_km`; when present but unparseable, `int()` raises
ValueError which is caught and returned as 400 (the archive is not created). -/
def finalize_cycle (p : FinalizePayload) (s : Store) : Resp × Store :=
  match get_active_cycle s with
  | none => (Resp.err 400 "Nenhum ciclo ativo para finalizar", s)
  | some cycle =>
    let end_km_str := jget p.end_km
    match (match end_km_str with
           | some v => (pyInt v).map some
           | none => some cycle.start_km) with
    | none => (Resp.err 400 "Valor inválido para KM final", s)
    | some end_km =>
      match cycle.start_km, end_km with
      | some sk, some ek =>
        if ek < sk then
          (Resp.err 400 ("KM Final (" ++ toString ek ++
            ") não pode ser menor que Inicial (" ++ toString sk ++ ")"), s)
        else finalizeCommit p cycle end_km s
      | _, _ => finalizeCommit p cycle end_km s

/-- `POST /api/earnings` body.  The client-supplied ISO timestamp is modelled
as already parsed (`timestamp`); `now` is the server-side default. -/
structure EarnPayload where
  amount : Option JVal
  new_period_total : Option JVal
  timestamp : Option Nat
  now : Nat
deriving DecidableEq, Repr

/-- `add_earning` (`POST /api/earnings`).  `amount` is the signed delta: a
negative delta creates no row but is still added to `cumulative_earnings`;
`current_period_earnings` is overwritten with `new_period_total`; the race
counters increment only for a strictly positive delta. -/
def add_earning (body : Option EarnPayload) (s : Store) : Resp × Store :=
  match get_active_cycle s with
  | none => (Resp.err 400 "Nenhum ciclo ativo para adicionar ganhos", s)
  | some cycle =>
    match body with
    | none =>
      (Resp.err 400 "Payload inválido. amount e new_period_total são obrigatórios", s)
    | some p =>
      match p.amount, p.new_period_total with
      | some av, some nv =>
        match pyDecimal av, pyDecimal nv with
        | some amount, some new_period_total =>
          let timestamp := p.timestamp.getD p.now
          let row : Earning :=
            { id := s.nextEarningId, cycle_id := cycle.id,
              timestamp := timestamp, amount := amount }
          let s1 := if amount < 0 then s
            else { s with earnings := s.earnings ++ [row],
                          nextEarningId := s.nextEarningId + 1 }
          let cycle1 := { cycle with
            current_period_earnings := new_period_total,
            cumulative_earnings := cycle.cumulative_earnings + amount,
            current_period_race_count :=
              if 0 < amount then cycle.current_period_race_count + 1
              else cycle.current_period_race_count,
            cumulative_race_count :=
              if 0 < amount then cycle.cumulative_race_count + 1
              else cycle.cumulative_race_count }
          let s2 := updateCycle s1 cycle1
          let (_, s3) := get_app_state s2
          (Resp.ok 200, s3)
        | _, _ => (Resp.err 400 "Dados inválidos", s)
      | _, _ =>
        (Resp.err 400 "Payload inválido. amount e new_period_total são obrigatórios", s)

/-- `PUT /api/earnings/{id}` body. -/
structure EditPayload where
  amount : Option JVal
deriving DecidableEq, Repr

/-- `edit_earning` (`PUT /api/earnings/{id}`): the difference between the new and
old amount is added to both running earnings totals; race counters untouched. -/
def edit_earning (eid : Nat) (body : Option EditPayload) (s : Store) : Resp × Store :=
  match get_active_cycle s with
  | none => (Resp.err 400 "Ciclo inativo", s)
  | some cycle =>
    match s.earnings.find? (fun e => decide (e.id = eid ∧ e.cycle_id = cycle.id)) with
    | none => (Resp.err 404 "Corrida não encontrada neste ciclo", s)
    | some earning =>
      match body with
      | none => (Resp.err 400 "Payload inválido. amount é obrigatório", s)
      | some p =>
        match p.amount with
        | none => (Resp.err 400 "Payload inválido. amount é obrigatório", s)
        | some av =>
          match pyDecimal av with
          | none => (Resp.err 400 "Valor inválido para amount", s)
          | some new_amount =>
            if new_amount < 0 then
              (Resp.err 400 "Valor da corrida não pode ser negativo", s)
            else
              let difference := new_amount - earning.amount
              let s1 := { s with earnings := s.earnings.map (fun e =>
                if e.id = earning.id then { e with amount := new_amount } else e) }
              let cycle1 := { cycle with
                cumulative_earnings := cycle.cumulative_earnings + difference,
                current_period_earnings := cycle.current_period_earnings + difference }
              let s2 := updateCycle s1 cycle1
              let (_, s3) := get_app_state s2
              (Resp.ok 200, s3)

/-- `delete_earning` (`DELETE /api/earnings/{id}`): subtract the deleted amount,
decrement both race counters, then clamp all four totals at zero. -/
def delete_earning (eid : Nat) (s : Store) : Resp × Store :=
  match get_active_cycle s with
  | none => (Resp.err 400 "Ciclo inativo", s)
  | some cycle =>
    match s.earnings.find? (fun e => decide (e.id = eid ∧ e.cycle_id = cycle.id)) with
    | none => (Resp.err 404 "Corrida não encontrada neste ciclo", s)
    | some earning =>
      let amount_deleted := earning.amount
      let s1 := { s with
        earnings := s.earnings.filter (fun e => decide (e.id ≠ earning.id)) }
      let cycle1 := { cycle with
        cumulative_earnings := max 0 (cycle.cumulative_earnings - amount_deleted),
        current_period_earnings := max 0 (cycle.current_period_earnings - amount_deleted),
        cumulative_race_count := max 0 (cycle.cumulative_race_count - 1),
        current_period_race_count := max 0 (cycle.current_period_race_count - 1) }
      let s2 := updateCycle s1 cycle1
      let (_, s3) := get_app_state s2
      (Resp.ok 200, s3)

/-- `POST /api/expenses` body. -/
structure ExpensePayload where
  category : Option String
  amount : Option JVal
  timestamp : Option Nat
  now : Nat
deriving DecidableEq, Repr

/-- `add_expense` (`POST /api/expenses`): amount must be strictly positive;
cycle running totals are not touched. -/
def add_expense (body : Option ExpensePayload) (s : Store) : Resp × Store :=
  match get_active_cycle s with
  | none => (Resp.err 400 "Nenhum ciclo ativo para adicionar despesas", s)
  | some cycle =>
    match body with
    | none => (Resp.err 400 "Payload inválido. category e amount são obrigatórios", s)
    | some p =>
      match p.category, p.amount with
      | some category, some av =>
        match pyDecimal av with
        | none => (Resp.err 400 "Dados inválidos", s)
        | some amount =>
          if amount ≤ 0 then (Resp.err 400 "Valor da despesa deve ser positivo", s)
          else
            let timestamp := p.timestamp.getD p.now
            let row : Expense :=
              { id := s.nextExpenseId, cycle_id := cycle.id,
                timestamp := timestamp, category := category, amount := amount }
            let s1 := { s with expenses := s.expenses ++ [row],
                               nextExpenseId := s.nextExpenseId + 1 }
            let (_, s2) := get_app_state s1
            (Resp.ok 201, s2)
      | _, _ =>
        (Resp.err 400 "Payload inválido. category e amount são obrigatórios", s)

/-- `delete_expense` (`DELETE /api/expenses/{id}`): plain deletion, no counter
adjustment. -/
def delete_expense (xid : Nat) (s : Store) : Resp × Store :=
  match get_active_cycle s with
  | none => (Resp.err 400 "Ciclo inativo", s)
  | some cycle =>
    match s.expenses.find? (fun e => decide (e.id = xid ∧ e.cycle_id = cycle.id)) with
    | none => (Resp.err 404 "Despesa não encontrada neste ciclo", s)
    | some expense =>
      let s1 := { s with
        expenses := s.expenses.filter (fun e => decide (e.id ≠ expense.id)) }
      let (_, s2) := get_app_state s1
      (Resp.ok 200, s2)

/-- `get_archives` (`GET /api/archives`): read-only list of archive documents,
newest first. -/
def get_archives (s : Store) : List ArchiveView × Store := (archivesDesc s, s)

/-- `POST /api/archives/period` body. -/
structure PeriodReq where
  note : String
  now : Nat
deriving DecidableEq, Repr

/-- `archive_period` (`POST /api/archives/period`): snapshot the current period
into a partial archive, delete every earning of the cycle, and zero both the
period totals and the cumulative totals; expenses are untouched. -/
def archive_period (p : PeriodReq) (s : Store) : Resp × Store :=
  match get_active_cycle s with
  | none => (Resp.err 400 "Nenhum ciclo ativo para arquivar período", s)
  | some cycle =>
    if cycle.current_period_earnings ≤ 0 ∧ cycle.current_period_race_count ≤ 0 then
      (Resp.err 400 "Sem dados no período atual para arquivar", s)
    else
      let earnings_details_list := earningsAsc s cycle.id
      let expenses_list := expensesAsc s cycle.id
      let total_other_expenses := (expenses_list.map (fun e => e.amount)).sum
      let profit_snapshot :=
        cycle.cumulative_earnings - cycle.gas_cost - total_other_expenses
      let payload : PeriodPayloadDoc := {
        archiveDate := p.now,
        periodEarnings := cycle.current_period_earnings,
        periodRaceCount := cycle.current_period_race_count,
        periodEndDate := p.now,
        earningsDetails := earnings_details_list,
        note := p.note,
        gasCostSnapshot := cycle.gas_cost,
        cycleProfitSnapshot := profit_snapshot }
      let row : ArchiveRow :=
        { id := s.nextArchiveId, archive_data := ArchiveData.periodoParcial payload,
          archive_date := p.now }
      let s1 := { s with archives := s.archives ++ [row],
                         nextArchiveId := s.nextArchiveId + 1 }
      let s2 := { s1 with
        earnings := s1.earnings.filter (fun e => decide (e.cycle_id ≠ cycle.id)) }
      let cycle1 := { cycle with
        current_period_earnings := 0, current_period_race_count := 0,
        cumulative_earnings := 0, cumulative_race_count := 0 }
      let s3 := updateCycle s2 cycle1
      let (_, s4) := get_app_state s3
      (Resp.ok 200, s4)

/-- `delete_archive` (`DELETE /api/archives/{id}`): destructive to history only;
a live active cycle is never reconciled (the partial-period branch in the code
is an explicit no-op). -/
def delete_archive (aid : Nat) (s : Store) : Resp × Store :=
  match s.archives.find? (fun a => decide (a.id = aid)) with
  | none => (Resp.err 404 "Arquivo não encontrado", s)
  | some _ =>
    (Resp.ok 200, { s with archives := s.archives.filter (fun a => decide (a.id ≠ aid)) })

/-- `PUT /api/cycles/current` body: `none` = key absent, `some jnull` = explicit
JSON null (the handler distinguishes them via `'key' in data`). -/
structure UpdatePayload where
  gas_cost : Option JVal
  fuel_price : Option JVal
  start_km : Option JVal
  end_km : Option JVal
deriving DecidableEq, Repr

/-- `update_cycle_fields`, gas_cost step: applied with no range validation. -/
def upGasCost (v? : Option JVal) (cu : Cycle × Bool) : Except Resp (Cycle × Bool) :=
  match v? with
  | none => Except.ok cu
  | some v =>
    match pyDecimal v with
    | none => Except.error (Resp.err 400 "Dados inválidos")
    | some d => Except.ok ({ cu.1 with gas_cost := d }, true)

/-- `update_cycle_fields`, fuel_price step: explicit null clears the field. -/
def upFuelPrice (v? : Option JVal) (cu : Cycle × Bool) : Except Resp (Cycle × Bool) :=
  match v? with
  | none => Except.ok cu
  | some JVal.jnull => Except.ok ({ cu.1 with fuel_price_per_liter := none }, true)
  | some v =>
    match pyDecimal v with
    | none => Except.error (Resp.err 400 "Dados inválidos")
    | some d => Except.ok ({ cu.1 with fuel_price_per_liter := some d }, true)

/-- `update_cycle_fields`, start_km step: must not exceed the (current) end_km. -/
def upStartKm (v? : Option JVal) (cu : Cycle × Bool) : Except Resp (Cycle × Bool) :=
  match v? with
  | none => Except.ok cu
  | some v =>
    match (match v with
           | JVal.jnull => some (none : Option Int)
           | w => (pyInt w).map some) with
    | none => Except.error (Resp.err 400 "Dados inválidos")
    | some new_start_km =>
      match cu.1.end_km, new_start_km with
      | some ek, some nsk =>
        if ek < nsk then
          Except.error (Resp.err 400 ("KM inicial (" ++ toString nsk ++
            ") não pode ser maior que KM final (" ++ toString ek ++ ")"))
        else Except.ok ({ cu.1 with start_km := new_start_km }, true)
      | _, _ => Except.ok ({ cu.1 with start_km := new_start_km }, true)

/-- `update_cycle_fields`, end_km step: must not be below the (possibly just
updated) start_km. -/
def upEndKm (v? : Option JVal) (cu : Cycle × Bool) : Except Resp (Cycle × Bool) :=
  match v? with
  | none => Except.ok cu
  | some v =>
    match (match v with
           | JVal.jnull => some (none : Option Int)
           | w => (pyInt w).map some) with
    | none => Except.error (Resp.err 400 "Dados inválidos")
    | some new_end_km =>
      match cu.1.start_km, new_end_km with
      | some sk, some nek =>
        if nek < sk then
          Except.error (Resp.err 400 ("KM final (" ++ toString nek ++
            ") não pode ser menor que KM inicial (" ++ toString sk ++ ")"))
        else Except.ok ({ cu.1 with end_km := new_end_km }, true)
      | _, _ => Except.ok ({ cu.1 with end_km := new_end_km }, true)

/-- `update_cycle_fields` (`PUT /api/cycles/current`): the four fields are
validated and applied in order on the in-session cycle object; any failure
discards the uncommitted changes. -/
def update_cycle_fields (body : Option UpdatePayload) (s : Store) : Resp × Store :=
  match get_active_cycle s with
  | none => (Resp.err 400 "Nenhum ciclo ativo para atualizar", s)
  | some cycle =>
    match body with
    | none => (Resp.err 400 "Payload inválido", s)
    | some p =>
      match upGasCost p.gas_cost (cycle, false) >>= upFuelPrice p.fuel_price
            >>= upStartKm p.start_km >>= upEndKm p.end_km with
      | Except.error r => (r, s)
      | Except.ok (cycle1, updated) =>
        if updated then
          let s1 := updateCycle s cycle1
          let (_, s2) := get_app_state s1
          (Resp.ok 200, s2)
        else (Resp.err 400 "Nenhum campo válido para atualizar foi fornecido", s)

/-- `reset_database` (`POST /api/reset`): delete every row (children first),
then re-bootstrap a single inactive cycle via `get_or_create_active_cycle`. -/
def reset_database (s : Store) : Resp × Store :=
  let s1 := { s with earnings := [], expenses := [], archives := [], cycles := [] }
  let (_, s2) := get_or_create_active_cycle s1
  (Resp.ok 200, s2)

/-- The `GET /api/state` route as a state transformer. -/
def get_state_route (s : Store) : Resp × Store :=
  let (_, s1) := get_app_state s
  (Resp.ok 200, s1)

/-- One API operation (route plus request body). -/
inductive Op where
  | state
  | startC (body : Option StartPayload)
  | finalizeC (p : FinalizePayload)
  | updateC (body : Option UpdatePayload)
  | addEarn (body : Option EarnPayload)
  | editEarn (eid : Nat) (body : Option EditPayload)
  | delEarn (eid : Nat)
  | addExp (body : Option ExpensePayload)
  | delExp (xid : Nat)
  | listArch
  | archPeriod (p : PeriodReq)
  | delArch (aid : Nat)
  | resetDb
deriving DecidableEq, Repr

/-- The store after handling one request. -/
def step : Op → Store → Store
  | Op.state, s => (get_state_route s).2
  | Op.startC b, s => (start_cycle b s).2
  | Op.finalizeC p, s => (finalize_cycle p s).2
  | Op.updateC b, s => (update_cycle_fields b s).2
  | Op.addEarn b, s => (add_earning b s).2
  | Op.editEarn eid b, s => (edit_earning eid b s).2
  | Op.delEarn eid, s => (delete_earning eid s).2
  | Op.addExp b, s => (add_expense b s).2
  | Op.delExp xid, s => (delete_expense xid s).2
  | Op.listArch, s => (get_archives s).2
  | Op.archPeriod p, s => (archive_period p s).2
  | Op.delArch aid, s => (delete_archive aid s).2
  | Op.resetDb, s => (reset_database s).2

/-- The store after handling a sequence of requests. -/
def runOps (ops : List Op) (s : Store) : Store :=
  ops.foldl (fun t op => step op t) s

/-- Number of cycle rows with `is_active = true`. -/
def activeCount (s : Store) : Nat :=
  s.cycles.countP (fun c => c.is_active)

/-- Primary-key sanity of the cycle table: ids are distinct and below the
next id the store will assign. -/
def CycleIdsOk (s : Store) : Prop :=
  (s.cycles.map (fun c => c.id)).Nodup ∧ ∀ c ∈ s.cycles, c.id < s.nextCycleId

/-- The inductive invariant for the single-active-cycle property. -/
def Inv (s : Store) : Prop := activeCount s ≤ 1 ∧ CycleIdsOk s

/-- Both race counters of every cycle row are nonnegative. -/
def RaceNonneg (s : Store) : Prop :=
  ∀ c ∈ s.cycles, 0 ≤ c.cumulative_race_count ∧ 0 ≤ c.current_period_race_count

/-- Every cycle row's gas cost is nonnegative. -/
def GasNonneg (s : Store) : Prop := ∀ c ∈ s.cycles, 0 ≤ c.gas_cost

/-- An earning add/edit/delete operation (the scope of claim C2). -/
inductive EarnOp where
  | add (body : Option EarnPayload)
  | edit (eid : Nat) (body : Option EditPayload)
  | del (eid : Nat)
deriving DecidableEq, Repr

/-- The store after one earning operation. -/
def stepEarn : EarnOp → Store → Store
  | EarnOp.add b, s => (add_earning b s).2
  | EarnOp.edit eid b, s => (edit_earning eid b s).2
  | EarnOp.del eid, s => (delete_earning eid s).2

/-- The store after a sequence of earning operations. -/
def runEarnOps (ops : List EarnOp) (s : Store) : Store :=
  ops.foldl (fun t op => stepEarn op t) s

/-- Whether an operation is the `PUT /api/cycles/current` field update. -/
def Op.isUpdate : Op → Bool
  | Op.updateC _ => true
  | _ => false

/-- Fixture: an active cycle with one recorded earning of 20. -/
def cycleA : Cycle :=
  { id := 1, gas_cost := 50, start_km := some 1000, end_km := none,
    fuel_price_per_liter := none, is_active := true, start_time := 10,
    cumulative_earnings := 20, cumulative_race_count := 1,
    current_period_earnings := 20, current_period_race_count := 1 }

/-- Fixture: the earning row recorded on `cycleA`. -/
def earningA : Earning := { id := 1, cycle_id := 1, timestamp := 11, amount := 20 }

/-- Fixture: a store holding `cycleA` and `earningA`. -/
def storeA : Store :=
  { cycles := [cycleA], earnings := [earningA], expenses := [], archives := [],
    nextCycleId := 2, nextEarningId := 2, nextExpenseId := 1, nextArchiveId := 1 }

/-- Fixture: a store holding a single inactive cycle and nothing else. -/
def storeI : Store :=
  { cycles := [defaultCycle 1], earnings := [], expenses := [], archives := [],
    nextCycleId := 2, nextEarningId := 1, nextExpenseId := 1, nextArchiveId := 1 }

/-- Fixture: a valid start request with gas cost 50 and no km/fuel data. -/
def startPayload50 : StartPayload :=
  { gas_cost := some (JVal.jnum 50), start_km := none, fuel_price := none, now := 0 }

/-- Fixture: an earning-add request carrying a negative delta and a negative
new period total. -/
def negEarnPayload : EarnPayload :=
  { amount := some (JVal.jnum (-25)), new_period_total := some (JVal.jnum (-5)),
    timestamp := none, now := 12 }

/-- Fixture: a valid earning-add request for a ride of 5 with new period
total 25. -/
def addEarnPayload5 : EarnPayload :=
  { amount := some (JVal.jnum 5), new_period_total := some (JVal.jnum 25),
    timestamp := none, now := 13 }

/-- Fixture: a period-archive request. -/
def periodReq40 : PeriodReq := { note := "", now := 40 }

/-- A start request with positive gas cost `g` whose `start_km` and
`fuel_price` are both the JSON number 0. -/
def zeroKmStart (g : ℚ) (t : Nat) : StartPayload :=
  { gas_cost := some (JVal.jnum g), start_km := some (JVal.jnum 0),
    fuel_price := some (JVal.jnum 0), now := t }

/-- Fixture: a cycle-field patch carrying a negative gas cost. -/
def negGasPatch : UpdatePayload :=
  { gas_cost := some (JVal.jnum (-5)), fuel_price := none, start_km := none,
    end_km := none }

/-- The cycle that `start_cycle startPayload50` inserts into the empty store. -/
def startedCycle1 : Cycle :=
  { id := 1, gas_cost := 50, start_km := none, end_km := none,
    fuel_price_per_liter := none, is_active := true, start_time := 0,
    cumulative_earnings := 0, cumulative_race_count := 0,
    current_period_earnings := 0, current_period_race_count := 0 }

/-! ### Generic list lemmas about the cycle table -/

theorem eq_of_mem_of_length_le_one {α : Type} {l : List α} (h : l.length ≤ 1)
    {x y : α} (hx : x ∈ l) (hy : y ∈ l) : x = y := by
  match l with
  | [] => exact absurd hx (List.not_mem_nil x)
  | [a] =>
    rw [List.mem_singleton] at hx hy
    rw [hx, hy]
  | a :: b :: t =>
    simp only [List.length_cons] at h
    omega

/-- Replacing rows by an inactive row never increases the active count. -/
theorem countP_update_le (l : List Cycle) (cid : Nat) (c' : Cycle)
    (hact : c'.is_active = false) :
    (l.map fun x => if x.id = cid then c' else x).countP (fun x => x.is_active)
      ≤ l.countP (fun x => x.is_active) := by
  induction l with
  | nil => simp
  | cons a tl ih =>
    simp only [List.map_cons, List.countP_cons]
    by_cases h : a.id = cid
    · rw [if_pos h]
      have h0 : (if c'.is_active = true then 1 else 0) = 0 := by simp [hact]
      rw [h0]
      omega
    · rw [if_neg h]
      omega

/-- A row update that touches no row of the list is the identity. -/
theorem map_update_id (l : List Cycle) (cid : Nat) (c' : Cycle)
    (h : ∀ x ∈ l, x.id ≠ cid) :
    (l.map fun x => if x.id = cid then c' else x) = l := by
  induction l with
  | nil => rfl
  | cons a tl ih =>
    rw [List.map_cons, if_neg (h a (List.mem_cons_self a tl)),
        ih (fun x hx => h x (List.mem_cons_of_mem a hx))]

/-- Replacing the unique row with key `c.id` by a row of the same activity
leaves the active count unchanged. -/
theorem countP_update_eq (l : List Cycle) (c c' : Cycle)
    (hnd : (l.map (fun x => x.id)).Nodup) (hmem : c ∈ l)
    (hact : c'.is_active = c.is_active) :
    (l.map fun x => if x.id = c.id then c' else x).countP (fun x => x.is_active)
      = l.countP (fun x => x.is_active) := by
  induction l with
  | nil => cases hmem
  | cons a tl ih =>
    rw [List.map_cons, List.nodup_cons] at hnd
    obtain ⟨hna, hnd'⟩ := hnd
    rcases List.mem_cons.mp hmem with rfl | hmem'
    · have htl : (tl.map fun x => if x.id = c.id then c' else x) = tl := by
        apply map_update_id
        intro x hx he
        exact hna (he ▸ List.mem_map_of_mem (fun y => y.id) hx)
      simp [htl, List.countP_cons, hact]
    · have hane : a.id ≠ c.id := by
        intro he
        exact hna (he ▸ List.mem_map_of_mem (fun y => y.id) hmem')
      simp only [List.map_cons, if_neg hane, List.countP_cons, ih hnd' hmem']

/-- `updateCycle` keeps the key column of the table unchanged. -/
theorem map_update_ids (l : List Cycle) (c' : Cycle) (cid : Nat) (hid : c'.id = cid) :
    ((l.map fun x => if x.id = cid then c' else x).map (fun x => x.id))
      = l.map (fun x => x.id) := by
  rw [List.map_map]
  apply List.map_congr_left
  intro a _
  by_cases h : a.id = cid
  · simp [Function.comp, h, hid]
  · simp [Function.comp, h]

/-- After deactivating the found active row of a table with at most one active
row, every row is inactive. -/
theorem all_inactive_after_deactivate (l : List Cycle) (c : Cycle)
    (hfind : l.find? (fun x => x.is_active) = some c)
    (hcnt : l.countP (fun x => x.is_active) ≤ 1) :
    ∀ x ∈ l.map (fun x => if x.id = c.id then { c with is_active := false } else x),
      x.is_active = false := by
  have hca : c.is_active = true := List.find?_some hfind
  have hcm : c ∈ l := List.mem_of_find?_eq_some hfind
  intro y hy
  rcases List.mem_map.mp hy with ⟨x, hx, rfl⟩
  by_cases hxe : x.id = c.id
  · simp [hxe]
  · rw [if_neg hxe]
    by_contra hxa
    rw [Bool.not_eq_false] at hxa
    have hlen : (l.filter (fun z => z.is_active)).length ≤ 1 := by
      rw [← List.countP_eq_length_filter]
      exact hcnt
    have hxc : x = c :=
      eq_of_mem_of_length_le_one hlen
        (List.mem_filter.mpr ⟨hx, hxa⟩) (List.mem_filter.mpr ⟨hcm, hca⟩)
    exact hxe (by rw [hxc])

/-- A table whose active-row query finds nothing has active count zero. -/
theorem countP_eq_zero_of_find?_none (l : List Cycle)
    (h : l.find? (fun x => x.is_active) = none) :
    l.countP (fun x => x.is_active) = 0 := by
  rw [List.countP_eq_zero]
  intro a ha
  exact List.find?_eq_none.mp h a ha

/-- `find?` skips a prefix of rows that all fail the test. -/
theorem find?_append_of_none (l₁ l₂ : List Cycle)
    (h : ∀ x ∈ l₁, x.is_active = false) :
    ((l₁ ++ l₂).find? (fun c => c.is_active)) = l₂.find? (fun c => c.is_active) := by
  induction l₁ with
  | nil => rfl
  | cons a tl ih =>
    have ha := h a (List.mem_cons_self a tl)
    rw [List.cons_append, List.find?_cons, ha]
    exact ih (fun x hx => h x (List.mem_cons_of_mem a hx))

/-! ### Store-level helper lemmas -/

/-- `Inv` only looks at the cycle table and its id counter. -/
theorem inv_congr (s t : Store) (hc : t.cycles = s.cycles)
    (hn : t.nextCycleId = s.nextCycleId) (h : Inv s) : Inv t := by
  unfold Inv activeCount CycleIdsOk at *
  rw [hc, hn]
  exact h

/-- Serializing the app state only mutates through `get_or_create_active_cycle`. -/
theorem get_app_state_snd (s : Store) :
    (get_app_state s).2 = (get_or_create_active_cycle s).2 := rfl

/-- When some row of the table is active, `get_or_create_active_cycle` is a
pure read. -/
theorem get_or_create_of_active (s : Store) (c : Cycle) (hc : c ∈ s.cycles)
    (ha : c.is_active = true) : (get_or_create_active_cycle s).2 = s := by
  unfold get_or_create_active_cycle
  cases hf : get_active_cycle s with
  | some d => rfl
  | none =>
    have := List.find?_eq_none.mp hf c hc
    simp [ha] at this

theorem inv_get_or_create (s : Store) (h : Inv s) :
    Inv (get_or_create_active_cycle s).2 := by
  obtain ⟨hcnt, hnd, hbd⟩ := h
  unfold get_or_create_active_cycle
  cases hf : get_active_cycle s with
  | some c => exact ⟨hcnt, hnd, hbd⟩
  | none =>
    show Inv { s with cycles := s.cycles ++ [defaultCycle s.nextCycleId],
                      nextCycleId := s.nextCycleId + 1 }
    refine ⟨?_, ?_, ?_⟩
    · unfold activeCount at hcnt ⊢
      simp only [List.countP_append]
      have h0 : List.countP (fun c => c.is_active) [defaultCycle s.nextCycleId] = 0 := rfl
      rw [h0]
      omega
    · simp only [List.map_append]
      rw [List.nodup_append]
      refine ⟨hnd, List.nodup_singleton _, ?_⟩
      intro a ha hb
      rcases List.mem_map.mp ha with ⟨c, hc, rfl⟩
      have hlt := hbd c hc
      have : c.id = s.nextCycleId := by
        simpa [defaultCycle] using hb
      omega
    · intro c hc
      rcases List.mem_append.mp hc with h1 | h2
      · exact Nat.lt_trans (hbd c h1) (Nat.lt_succ_self _)
      · have : c = defaultCycle s.nextCycleId := by simpa using h2
        rw [this]
        exact Nat.lt_succ_self _

theorem inv_get_app_state (s : Store) (h : Inv s) : Inv (get_app_state s).2 := by
  rw [get_app_state_snd]
  exact inv_get_or_create s h

/-- Committing a row update that keeps the key and the activity flag of the
found active row preserves `Inv`. -/
theorem inv_updateCycle (s : Store) (c c' : Cycle) (h : Inv s)
    (hfind : get_active_cycle s = some c) (hid : c'.id = c.id)
    (hact : c'.is_active = c.is_active) : Inv (updateCycle s c') := by
  obtain ⟨hcnt, hnd, hbd⟩ := h
  have hcm : c ∈ s.cycles := List.mem_of_find?_eq_some hfind
  unfold updateCycle
  refine ⟨?_, ?_, ?_⟩
  · unfold activeCount at hcnt ⊢
    simp only [hid]
    rw [countP_update_eq s.cycles c c' hnd hcm hact]
    exact hcnt
  · show ((s.cycles.map fun x => if x.id = c'.id then c' else x).map (fun x => x.id)).Nodup
    rw [map_update_ids s.cycles c' c'.id rfl]
    exact hnd
  · intro x hx
    rcases List.mem_map.mp hx with ⟨y, hy, rfl⟩
    by_cases he : y.id = c'.id
    · rw [if_pos he]
      show c'.id < s.nextCycleId
      rw [hid]
      exact hbd c hcm
    · rw [if_neg he]
      exact hbd y hy

/-- Inversion for a successful `Except` bind. -/
theorem except_bind_ok {ε α β : Type} {x : Except ε α} {f : α → Except ε β} {b : β}
    (h : (x >>= f) = Except.ok b) : ∃ a, x = Except.ok a ∧ f a = Except.ok b := by
  cases x with
  | error e =>
    simp only [Bind.bind, Except.bind] at h
    exact absurd h (by simp)
  | ok a =>
    refine ⟨a, rfl, ?_⟩
    simpa only [Bind.bind, Except.bind] using h

/-- The four field-update steps of `update_cycle_fields` keep the row's key,
activity flag and race counters unchanged. -/
theorem upGasCost_pres (v? : Option JVal) (cu cu' : Cycle × Bool)
    (h : upGasCost v? cu = Except.ok cu') :
    cu'.1.id = cu.1.id ∧ cu'.1.is_active = cu.1.is_active := by
  unfold upGasCost at h
  repeat' split at h
  all_goals try exact Except.noConfusion h
  all_goals cases h
  all_goals exact ⟨rfl, rfl⟩

theorem upFuelPrice_pres (v? : Option JVal) (cu cu' : Cycle × Bool)
    (h : upFuelPrice v? cu = Except.ok cu') :
    cu'.1.id = cu.1.id ∧ cu'.1.is_active = cu.1.is_active := by
  unfold upFuelPrice at h
  repeat' split at h
  all_goals try exact Except.noConfusion h
  all_goals cases h
  all_goals exact ⟨rfl, rfl⟩

theorem upStartKm_pres (v? : Option JVal) (cu cu' : Cycle × Bool)
    (h : upStartKm v? cu = Except.ok cu') :
    cu'.1.id = cu.1.id ∧ cu'.1.is_active = cu.1.is_active := by
  unfold upStartKm at h
  repeat' split at h
  all_goals try exact Except.noConfusion h
  all_goals cases h
  all_goals exact ⟨rfl, rfl⟩

theorem upEndKm_pres (v? : Option JVal) (cu cu' : Cycle × Bool)
    (h : upEndKm v? cu = Except.ok cu') :
    cu'.1.id = cu.1.id ∧ cu'.1.is_active = cu.1.is_active := by
  unfold upEndKm at h
  repeat' split at h
  all_goals try exact Except.noConfusion h
  all_goals cases h
  all_goals exact ⟨rfl, rfl⟩

/-! ### `Inv` is preserved by every handler -/

theorem inv_add_earning (b : Option EarnPayload) (s : Store) (h : Inv s) :
    Inv (add_earning b s).2 := by
  unfold add_earning
  split
  · exact h
  next cycle hfind =>
    split
    · exact h
    next p =>
      split
      next av nv =>
        split
        next amount npt hd1 hd2 =>
          dsimp only
          apply inv_get_app_state
          apply inv_updateCycle
          · split
            · exact h
            · exact inv_congr s _ rfl rfl h
          · split
            · exact hfind
            · exact hfind
          · rfl
          · rfl
        · exact h
      · exact h

theorem inv_state_route (s : Store) (h : Inv s) : Inv (get_state_route s).2 :=
  inv_get_app_state s h

/-- Replacement by a row whose key is already in range preserves the bound. -/
theorem bound_updateCycle (l : List Cycle) (n : Nat) (c' : Cycle)
    (hbd : ∀ c ∈ l, c.id < n) (hc' : c'.id < n) :
    ∀ x ∈ l.map (fun x => if x.id = c'.id then c' else x), x.id < n := by
  intro x hx
  rcases List.mem_map.mp hx with ⟨y, hy, rfl⟩
  by_cases he : y.id = c'.id
  · rw [if_pos he]
    exact hc'
  · rw [if_neg he]
    exact hbd y hy

/-- Committing an inactive row over any row preserves `Inv`. -/
theorem inv_updateCycle_inactive (s : Store) (c' : Cycle) (h : Inv s)
    (hact : c'.is_active = false) (hbd' : c'.id < s.nextCycleId) :
    Inv (updateCycle s c') := by
  obtain ⟨hcnt, hnd, hbd⟩ := h
  refine ⟨?_, ?_, ?_⟩
  · exact le_trans (countP_update_le s.cycles c'.id c' hact) hcnt
  · show ((s.cycles.map fun x => if x.id = c'.id then c' else x).map (fun x => x.id)).Nodup
    rw [map_update_ids s.cycles c' c'.id rfl]
    exact hnd
  · exact bound_updateCycle s.cycles s.nextCycleId c' hbd hbd'

theorem deactivate_all_inactive (s : Store) (hcnt : activeCount s ≤ 1) :
    ∀ x ∈ (deactivateFirstActive s).cycles, x.is_active = false := by
  unfold deactivateFirstActive
  cases hf : get_active_cycle s with
  | none =>
    intro x hx
    have := List.find?_eq_none.mp hf x hx
    simpa using this
  | some c => exact all_inactive_after_deactivate s.cycles c hf hcnt

theorem deactivate_ids (s : Store) :
    (deactivateFirstActive s).cycles.map (fun c => c.id) = s.cycles.map (fun c => c.id) := by
  unfold deactivateFirstActive
  cases hf : get_active_cycle s with
  | none => rfl
  | some c => exact map_update_ids s.cycles _ _ rfl

theorem deactivate_nextCycleId (s : Store) :
    (deactivateFirstActive s).nextCycleId = s.nextCycleId := by
  unfold deactivateFirstActive
  cases get_active_cycle s <;> rfl

theorem deactivate_bound (s : Store) (hbd : ∀ c ∈ s.cycles, c.id < s.nextCycleId) :
    ∀ c ∈ (deactivateFirstActive s).cycles, c.id < s.nextCycleId := by
  unfold deactivateFirstActive
  cases hf : get_active_cycle s with
  | none => exact hbd
  | some c =>
    apply bound_updateCycle s.cycles s.nextCycleId _ hbd
    exact hbd c (List.mem_of_find?_eq_some hf)

theorem inv_startFresh (g : ℚ) (skm : Option Int) (fp : Option ℚ) (now : Nat)
    (s : Store) (h : Inv s) : Inv (startFresh g skm fp now s) := by
  obtain ⟨hcnt, hnd, hbd⟩ := h
  have hinact := deactivate_all_inactive s hcnt
  have hids := deactivate_ids s
  have hnext := deactivate_nextCycleId s
  have hbd1 := deactivate_bound s hbd
  unfold startFresh
  dsimp only
  refine ⟨?_, ?_, ?_⟩
  · unfold activeCount
    dsimp only
    rw [List.countP_append]
    have h1 : (deactivateFirstActive s).cycles.countP (fun c => c.is_active) = 0 := by
      rw [List.countP_eq_zero]
      intro a ha
      simp [hinact a ha]
    rw [h1]
    simp
  · dsimp only
    simp only [List.map_append]
    rw [List.nodup_append]
    refine ⟨by rw [hids]; exact hnd, List.nodup_singleton _, ?_⟩
    intro a ha hb
    rw [hids] at ha
    rcases List.mem_map.mp ha with ⟨c, hc, rfl⟩
    have h2 : c.id = (deactivateFirstActive s).nextCycleId := by simpa using hb
    rw [hnext] at h2
    have := hbd c hc
    omega
  · dsimp only
    intro c hc
    rcases List.mem_append.mp hc with h1 | h2
    · have h3 := hbd1 c h1
      rw [hnext]
      omega
    · have h4 : c.id = (deactivateFirstActive s).nextCycleId := by
        rcases List.mem_singleton.mp h2 with rfl
        rfl
      omega

theorem inv_start_cycle (b : Option StartPayload) (s : Store) (h : Inv s) :
    Inv (start_cycle b s).2 := by
  unfold start_cycle
  dsimp only
  repeat' split
  all_goals try exact h
  exact inv_startFresh _ _ _ _ s h

theorem inv_finalizeCommit (p : FinalizePayload) (cycle : Cycle) (ek : Option Int)
    (s : Store) (h : Inv s) (hfind : get_active_cycle s = some cycle) :
    Inv (finalizeCommit p cycle ek s).2 := by
  unfold finalizeCommit
  dsimp only
  apply inv_get_app_state
  apply inv_updateCycle_inactive
  · exact inv_congr s _ rfl rfl h
  · rfl
  · show cycle.id < s.nextCycleId
    exact h.2.2 cycle (List.mem_of_find?_eq_some hfind)

theorem inv_finalize_cycle (p : FinalizePayload) (s : Store) (h : Inv s) :
    Inv (finalize_cycle p s).2 := by
  unfold finalize_cycle
  dsimp only
  repeat' split
  all_goals try exact h
  all_goals apply inv_finalizeCommit
  all_goals first | exact h | assumption

/-- The update chain of `update_cycle_fields` keeps key and activity. -/
theorem upChain_pres (p : UpdatePayload) (c : Cycle) (cu' : Cycle × Bool)
    (h : (upGasCost p.gas_cost (c, false) >>= upFuelPrice p.fuel_price
          >>= upStartKm p.start_km >>= upEndKm p.end_km) = Except.ok cu') :
    cu'.1.id = c.id ∧ cu'.1.is_active = c.is_active := by
  obtain ⟨a3, h3, he⟩ := except_bind_ok h
  obtain ⟨a2, h2, hs⟩ := except_bind_ok h3
  obtain ⟨a1, h1, hf⟩ := except_bind_ok h2
  obtain ⟨g1, g2⟩ := upGasCost_pres _ _ _ h1
  obtain ⟨f1, f2⟩ := upFuelPrice_pres _ _ _ hf
  obtain ⟨s1, s2⟩ := upStartKm_pres _ _ _ hs
  obtain ⟨e1, e2⟩ := upEndKm_pres _ _ _ he
  constructor
  · rw [e1, s1, f1, g1]
  · rw [e2, s2, f2, g2]

theorem inv_update_cycle_fields (b : Option UpdatePayload) (s : Store) (h : Inv s) :
    Inv (update_cycle_fields b s).2 := by
  unfold update_cycle_fields
  split
  · exact h
  next cycle hfind =>
    split
    · exact h
    next p =>
      split
      · exact h
      next cyc1 upd heq =>
        split
        · dsimp only
          apply inv_get_app_state
          have hca := upChain_pres p cycle (cyc1, upd) heq
          exact inv_updateCycle s cycle cyc1 h hfind hca.1 hca.2
        · exact h

theorem inv_edit_earning (eid : Nat) (b : Option EditPayload) (s : Store) (h : Inv s) :
    Inv (edit_earning eid b s).2 := by
  unfold edit_earning
  split
  · exact h
  next cycle hfind =>
    repeat' split
    all_goals try exact h
    dsimp only
    apply inv_get_app_state
    apply inv_updateCycle
    · exact inv_congr s _ rfl rfl h
    · exact hfind
    · rfl
    · rfl

theorem inv_delete_earning (eid : Nat) (s : Store) (h : Inv s) :
    Inv (delete_earning eid s).2 := by
  unfold delete_earning
  split
  · exact h
  next cycle hfind =>
    split
    · exact h
    next earning hfe =>
      dsimp only
      apply inv_get_app_state
      apply inv_updateCycle
      · exact inv_congr s _ rfl rfl h
      · exact hfind
      · rfl
      · rfl

theorem inv_add_expense (b : Option ExpensePayload) (s : Store) (h : Inv s) :
    Inv (add_expense b s).2 := by
  unfold add_expense
  repeat' split
  all_goals try exact h
  dsimp only
  apply inv_get_app_state
  exact inv_congr s _ rfl rfl h

theorem inv_delete_expense (xid : Nat) (s : Store) (h : Inv s) :
    Inv (delete_expense xid s).2 := by
  unfold delete_expense
  repeat' split
  all_goals try exact h
  dsimp only
  apply inv_get_app_state
  exact inv_congr s _ rfl rfl h

theorem inv_archive_period (p : PeriodReq) (s : Store) (h : Inv s) :
    Inv (archive_period p s).2 := by
  unfold archive_period
  split
  · exact h
  next cycle hfind =>
    split
    · exact h
    · dsimp only
      apply inv_get_app_state
      apply inv_updateCycle
      · exact inv_congr s _ rfl rfl h
      · exact hfind
      · rfl
      · rfl

theorem inv_delete_archive (aid : Nat) (s : Store) (h : Inv s) :
    Inv (delete_archive aid s).2 := by
  unfold delete_archive
  split
  · exact h
  · exact inv_congr s _ rfl rfl h

theorem inv_reset_database (s : Store) (h : Inv s) : Inv (reset_database s).2 := by
  unfold reset_database
  dsimp only
  apply inv_get_or_create
  refine ⟨?_, ?_, ?_⟩
  · show List.countP (fun c => c.is_active) ([] : List Cycle) ≤ 1
    simp
  · show (List.map (fun c => c.id) ([] : List Cycle)).Nodup
    simp
  · intro c hc
    exact absurd hc (List.not_mem_nil c)

theorem inv_step (op : Op) (s : Store) (h : Inv s) : Inv (step op s) := by
  cases op with
  | state => exact inv_state_route s h
  | startC b => exact inv_start_cycle b s h
  | finalizeC p => exact inv_finalize_cycle p s h
  | updateC b => exact inv_update_cycle_fields b s h
  | addEarn b => exact inv_add_earning b s h
  | editEarn eid b => exact inv_edit_earning eid b s h
  | delEarn eid => exact inv_delete_earning eid s h
  | addExp b => exact inv_add_expense b s h
  | delExp xid => exact inv_delete_expense xid s h
  | listArch => exact h
  | archPeriod p => exact inv_archive_period p s h
  | delArch aid => exact inv_delete_archive aid s h
  | resetDb => exact inv_reset_database s h

theorem inv_runOps (ops : List Op) (s : Store) (h : Inv s) : Inv (runOps ops s) := by
  induction ops generalizing s with
  | nil => exact h
  | cons op tl ih => exact ih (step op s) (inv_step op s h)

/-! ### Race counters stay nonnegative under earning operations -/

theorem raceNonneg_congr (s t : Store) (hc : t.cycles = s.cycles) (h : RaceNonneg s) :
    RaceNonneg t := by
  unfold RaceNonneg at *
  rw [hc]
  exact h

theorem raceNonneg_updateCycle (s : Store) (c' : Cycle) (h : RaceNonneg s)
    (h1 : 0 ≤ c'.cumulative_race_count) (h2 : 0 ≤ c'.current_period_race_count) :
    RaceNonneg (updateCycle s c') := by
  intro x hx
  rcases List.mem_map.mp hx with ⟨y, hy, rfl⟩
  by_cases he : y.id = c'.id
  · rw [if_pos he]
    exact ⟨h1, h2⟩
  · rw [if_neg he]
    exact h y hy

theorem raceNonneg_get_or_create (s : Store) (h : RaceNonneg s) :
    RaceNonneg (get_or_create_active_cycle s).2 := by
  unfold get_or_create_active_cycle
  cases hf : get_active_cycle s with
  | some c => exact h
  | none =>
    intro x hx
    rcases List.mem_append.mp hx with h1 | h2
    · exact h x h1
    · rcases List.mem_singleton.mp h2 with rfl
      exact ⟨le_refl 0, le_refl 0⟩

theorem raceNonneg_get_app_state (s : Store) (h : RaceNonneg s) :
    RaceNonneg (get_app_state s).2 := by
  rw [get_app_state_snd]
  exact raceNonneg_get_or_create s h

theorem raceNonneg_add_earning (b : Option EarnPayload) (s : Store) (h : RaceNonneg s) :
    RaceNonneg (add_earning b s).2 := by
  unfold add_earning
  split
  · exact h
  next cycle hfind =>
    split
    · exact h
    next p =>
      split
      next av nv =>
        split
        next amount npt hd1 hd2 =>
          dsimp only
          apply raceNonneg_get_app_state
          have hcm := List.mem_of_find?_eq_some hfind
          obtain ⟨hc1, hc2⟩ := h cycle hcm
          apply raceNonneg_updateCycle
          · split
            · exact h
            · exact raceNonneg_congr s _ rfl h
          · show (0 : Int) ≤ if 0 < amount then cycle.cumulative_race_count + 1
              else cycle.cumulative_race_count
            split <;> omega
          · show (0 : Int) ≤ if 0 < amount then cycle.current_period_race_count + 1
              else cycle.current_period_race_count
            split <;> omega
        · exact h
      · exact h

theorem raceNonneg_edit_earning (eid : Nat) (b : Option EditPayload) (s : Store)
    (h : RaceNonneg s) : RaceNonneg (edit_earning eid b s).2 := by
  unfold edit_earning
  split
  · exact h
  next cycle hfind =>
    repeat' split
    all_goals try exact h
    dsimp only
    apply raceNonneg_get_app_state
    have hcm := List.mem_of_find?_eq_some hfind
    obtain ⟨hc1, hc2⟩ := h cycle hcm
    apply raceNonneg_updateCycle
    · exact raceNonneg_congr s _ rfl h
    · exact hc1
    · exact hc2

theorem raceNonneg_delete_earning (eid : Nat) (s : Store) (h : RaceNonneg s) :
    RaceNonneg (delete_earning eid s).2 := by
  unfold delete_earning
  split
  · exact h
  next cycle hfind =>
    split
    · exact h
    next earning hfe =>
      dsimp only
      apply raceNonneg_get_app_state
      apply raceNonneg_updateCycle
      · exact raceNonneg_congr s _ rfl h
      · exact le_max_left 0 _
      · exact le_max_left 0 _

theorem raceNonneg_stepEarn (op : EarnOp) (s : Store) (h : RaceNonneg s) :
    RaceNonneg (stepEarn op s) := by
  cases op with
  | add b => exact raceNonneg_add_earning b s h
  | edit eid b => exact raceNonneg_edit_earning eid b s h
  | del eid => exact raceNonneg_delete_earning eid s h

theorem raceNonneg_runEarnOps (ops : List EarnOp) (s : Store) (h : RaceNonneg s) :
    RaceNonneg (runEarnOps ops s) := by
  induction ops generalizing s with
  | nil => exact h
  | cons op tl ih => exact ih (stepEarn op s) (raceNonneg_stepEarn op s h)

/-! ### Gas cost stays nonnegative away from `update_cycle_fields` -/

theorem gasNonneg_congr (s t : Store) (hc : t.cycles = s.cycles) (h : GasNonneg s) :
    GasNonneg t := by
  unfold GasNonneg at *
  rw [hc]
  exact h

theorem gasNonneg_updateCycle (s : Store) (c' : Cycle) (h : GasNonneg s)
    (h1 : 0 ≤ c'.gas_cost) : GasNonneg (updateCycle s c') := by
  intro x hx
  rcases List.mem_map.mp hx with ⟨y, hy, rfl⟩
  by_cases he : y.id = c'.id
  · rw [if_pos he]
    exact h1
  · rw [if_neg he]
    exact h y hy

theorem gasNonneg_get_or_create (s : Store) (h : GasNonneg s) :
    GasNonneg (get_or_create_active_cycle s).2 := by
  unfold get_or_create_active_cycle
  cases hf : get_active_cycle s with
  | some c => exact h
  | none =>
    intro x hx
    rcases List.mem_append.mp hx with h1 | h2
    · exact h x h1
    · rcases List.mem_singleton.mp h2 with rfl
      exact le_refl 0

theorem gasNonneg_get_app_state (s : Store) (h : GasNonneg s) :
    GasNonneg (get_app_state s).2 := by
  rw [get_app_state_snd]
  exact gasNonneg_get_or_create s h

theorem gasNonneg_deactivate (s : Store) (h : GasNonneg s) :
    GasNonneg (deactivateFirstActive s) := by
  unfold deactivateFirstActive
  cases hf : get_active_cycle s with
  | none => exact h
  | some c =>
    apply gasNonneg_updateCycle s _ h
    exact h c (List.mem_of_find?_eq_some hf)

theorem gasNonneg_startFresh (g : ℚ) (skm : Option Int) (fp : Option ℚ) (now : Nat)
    (s : Store) (h : GasNonneg s) (hg : 0 ≤ g) :
    GasNonneg (startFresh g skm fp now s) := by
  unfold startFresh
  dsimp only
  intro x hx
  rcases List.mem_append.mp hx with h1 | h2
  · exact gasNonneg_deactivate s h x h1
  · rcases List.mem_singleton.mp h2 with rfl
    exact hg

theorem gasNonneg_start_cycle (b : Option StartPayload) (s : Store) (h : GasNonneg s) :
    GasNonneg (start_cycle b s).2 := by
  unfold start_cycle
  dsimp only
  repeat' split
  all_goals try exact h
  apply gasNonneg_startFresh _ _ _ _ s h
  exact le_of_lt (not_le.mp (by assumption))

theorem gasNonneg_finalizeCommit (p : FinalizePayload) (cycle : Cycle)
    (ek : Option Int) (s : Store) (h : GasNonneg s)
    (hfind : get_active_cycle s = some cycle) :
    GasNonneg (finalizeCommit p cycle ek s).2 := by
  unfold finalizeCommit
  dsimp only
  apply gasNonneg_get_app_state
  apply gasNonneg_updateCycle
  · exact gasNonneg_congr s _ rfl h
  · exact h cycle (List.mem_of_find?_eq_some hfind)

theorem gasNonneg_finalize_cycle (p : FinalizePayload) (s : Store) (h : GasNonneg s) :
    GasNonneg (finalize_cycle p s).2 := by
  unfold finalize_cycle
  dsimp only
  repeat' split
  all_goals try exact h
  all_goals apply gasNonneg_finalizeCommit
  all_goals first | exact h | assumption

theorem gasNonneg_add_earning (b : Option EarnPayload) (s : Store) (h : GasNonneg s) :
    GasNonneg (add_earning b s).2 := by
  unfold add_earning
  split
  · exact h
  next cycle hfind =>
    split
    · exact h
    next p =>
      split
      next av nv =>
        split
        next amount npt hd1 hd2 =>
          dsimp only
          apply gasNonneg_get_app_state
          apply gasNonneg_updateCycle
          · split
            · exact h
            · exact gasNonneg_congr s _ rfl h
          · exact h cycle (List.mem_of_find?_eq_some hfind)
        · exact h
      · exact h

theorem gasNonneg_edit_earning (eid : Nat) (b : Option EditPayload) (s : Store)
    (h : GasNonneg s) : GasNonneg (edit_earning eid b s).2 := by
  unfold edit_earning
  split
  · exact h
  next cycle hfind =>
    repeat' split
    all_goals try exact h
    dsimp only
    apply gasNonneg_get_app_state
    apply gasNonneg_updateCycle
    · exact gasNonneg_congr s _ rfl h
    · exact h cycle (List.mem_of_find?_eq_some hfind)

theorem gasNonneg_delete_earning (eid : Nat) (s : Store) (h : GasNonneg s) :
    GasNonneg (delete_earning eid s).2 := by
  unfold delete_earning
  split
  · exact h
  next cycle hfind =>
    split
    · exact h
    next earning hfe =>
      dsimp only
      apply gasNonneg_get_app_state
      apply gasNonneg_updateCycle
      · exact gasNonneg_congr s _ rfl h
      · exact h cycle (List.mem_of_find?_eq_some hfind)

theorem gasNonneg_add_expense (b : Option ExpensePayload) (s : Store) (h : GasNonneg s) :
    GasNonneg (add_expense b s).2 := by
  unfold add_expense
  repeat' split
  all_goals try exact h
  dsimp only
  apply gasNonneg_get_app_state
  exact gasNonneg_congr s _ rfl h

theorem gasNonneg_delete_expense (xid : Nat) (s : Store) (h : GasNonneg s) :
    GasNonneg (delete_expense xid s).2 := by
  unfold delete_expense
  repeat' split
  all_goals try exact h
  dsimp only
  apply gasNonneg_get_app_state
  exact gasNonneg_congr s _ rfl h

theorem gasNonneg_archive_period (p : PeriodReq) (s : Store) (h : GasNonneg s) :
    GasNonneg (archive_period p s).2 := by
  unfold archive_period
  split
  · exact h
  next cycle hfind =>
    split
    · exact h
    · dsimp only
      apply gasNonneg_get_app_state
      apply gasNonneg_updateCycle
      · exact gasNonneg_congr s _ rfl h
      · exact h cycle (List.mem_of_find?_eq_some hfind)

theorem gasNonneg_delete_archive (aid : Nat) (s : Store) (h : GasNonneg s) :
    GasNonneg (delete_archive aid s).2 := by
  unfold delete_archive
  split
  · exact h
  · exact gasNonneg_congr s _ rfl h

theorem gasNonneg_reset_database (s : Store) (h : GasNonneg s) :
    GasNonneg (reset_database s).2 := by
  unfold reset_database
  dsimp only
  apply gasNonneg_get_or_create
  intro c hc
  exact absurd hc (List.not_mem_nil c)

theorem gasNonneg_step (op : Op) (s : Store) (hop : op.isUpdate = false)
    (h : GasNonneg s) : GasNonneg (step op s) := by
  cases op with
  | state => exact gasNonneg_get_app_state s h
  | startC b => exact gasNonneg_start_cycle b s h
  | finalizeC p => exact gasNonneg_finalize_cycle p s h
  | updateC b => exact absurd hop (by simp [Op.isUpdate])
  | addEarn b => exact gasNonneg_add_earning b s h
  | editEarn eid b => exact gasNonneg_edit_earning eid b s h
  | delEarn eid => exact gasNonneg_delete_earning eid s h
  | addExp b => exact gasNonneg_add_expense b s h
  | delExp xid => exact gasNonneg_delete_expense xid s h
  | listArch => exact h
  | archPeriod p => exact gasNonneg_archive_period p s h
  | delArch aid => exact gasNonneg_delete_archive aid s h
  | resetDb => exact gasNonneg_reset_database s h

theorem gasNonneg_runOps (ops : List Op) (s : Store)
    (hops : ∀ op ∈ ops, op.isUpdate = false) (h : GasNonneg s) :
    GasNonneg (runOps ops s) := by
  induction ops generalizing s with
  | nil => exact h
  | cons op tl ih =>
    exact ih (step op s)
      (fun o ho => hops o (List.mem_cons_of_mem op ho))
      (gasNonneg_step op s (hops op (List.mem_cons_self op tl)) h)

theorem gasNonneg_initStore : GasNonneg initStore := by
  intro c hc
  exact absurd hc (List.not_mem_nil c)

theorem inv_initStore : Inv initStore := by
  refine ⟨?_, ?_, ?_⟩
  · show List.countP (fun c => c.is_active) ([] : List Cycle) ≤ 1
    simp
  · show (List.map (fun c => c.id) ([] : List Cycle)).Nodup
    simp
  · intro c hc
    exact absurd hc (List.not_mem_nil c)

/-! ### Helper lemmas for the claim theorems -/

attribute [local semireducible] Rat.add Rat.sub Rat.mul Rat.inv

/-- The updated row is a member of the updated table whenever some row with
its key was present. -/
theorem mem_updateCycle (s : Store) (c' : Cycle) (y : Cycle) (hy : y ∈ s.cycles)
    (hid : y.id = c'.id) : c' ∈ (updateCycle s c').cycles := by
  unfold updateCycle
  exact List.mem_map.mpr ⟨y, hy, by rw [if_pos hid]⟩

/-- Serializing the state does not write when some cycle is active. -/
theorem get_app_state_fix (s : Store) (c : Cycle) (hc : c ∈ s.cycles)
    (ha : c.is_active = true) : (get_app_state s).2 = s := by
  rw [get_app_state_snd]
  exact get_or_create_of_active s c hc ha

/-- Serializing the state after committing an active row over an existing row
is a pure read. -/
theorem get_app_state_fix_update (t : Store) (y c1 : Cycle) (hy : y ∈ t.cycles)
    (hid : c1.id = y.id) (ha : c1.is_active = true) :
    (get_app_state (updateCycle t c1)).2 = updateCycle t c1 :=
  get_app_state_fix _ c1 (mem_updateCycle t c1 y hy hid.symm) ha

/-- The cycle created by `get_or_create_active_cycle` is inactive, so a second
lookup still finds no active cycle. -/
theorem get_active_after_create (s : Store) (h : get_active_cycle s = none) :
    get_active_cycle { s with cycles := s.cycles ++ [defaultCycle s.nextCycleId],
                              nextCycleId := s.nextCycleId + 1 } = none := by
  show (s.cycles ++ [defaultCycle s.nextCycleId]).find? (fun c => c.is_active) = none
  rw [find?_append_of_none]
  · rfl
  · intro x hx
    have := List.find?_eq_none.mp h x hx
    simpa using this

theorem get_or_create_archives (s : Store) :
    (get_or_create_active_cycle s).2.archives = s.archives := by
  unfold get_or_create_active_cycle
  cases get_active_cycle s <;> rfl

theorem get_or_create_earnings (s : Store) :
    (get_or_create_active_cycle s).2.earnings = s.earnings := by
  unfold get_or_create_active_cycle
  cases get_active_cycle s <;> rfl

theorem get_or_create_expenses (s : Store) :
    (get_or_create_active_cycle s).2.expenses = s.expenses := by
  unfold get_or_create_active_cycle
  cases get_active_cycle s <;> rfl

/-- Either `start_cycle` does not answer 201, or it committed exactly a
`startFresh` store. -/
theorem start_cycle_cases (p : StartPayload) (s : Store) :
    (start_cycle (some p) s).1 ≠ Resp.ok 201 ∨
    ∃ g skm fp, (start_cycle (some p) s).2 = startFresh g skm fp p.now s := by
  unfold start_cycle
  dsimp only
  repeat' split
  all_goals try (left; exact fun hh => Resp.noConfusion hh)
  right
  exact ⟨_, _, _, rfl⟩

/-- In a `startFresh` store built over a table with at most one active row,
the only active row is the newly inserted one. -/
theorem startFresh_active_id (g : ℚ) (skm : Option Int) (fp : Option ℚ) (now : Nat)
    (s : Store) (hcnt : activeCount s ≤ 1) :
    ∀ cc ∈ (startFresh g skm fp now s).cycles, cc.is_active = true →
      cc.id = s.nextCycleId := by
  unfold startFresh
  dsimp only
  intro cc hcc hact
  rcases List.mem_append.mp hcc with h1 | h2
  · have h3 := deactivate_all_inactive s hcnt cc h1
    rw [hact] at h3
    exact Bool.noConfusion h3
  · rcases List.mem_singleton.mp h2 with rfl
    exact deactivate_nextCycleId s

/-- A cycle freshly inserted by `get_or_create_active_cycle` is inactive. -/
theorem get_or_create_new_inactive (t : Store) (c : Cycle)
    (h1 : c ∈ (get_or_create_active_cycle t).2.cycles) (h2 : c ∉ t.cycles) :
    c.is_active = false := by
  unfold get_or_create_active_cycle at h1
  cases hf : get_active_cycle t with
  | some d =>
    rw [hf] at h1
    exact absurd h1 h2
  | none =>
    rw [hf] at h1
    rcases List.mem_append.mp h1 with ha | hb
    · exact absurd ha h2
    · rcases List.mem_singleton.mp hb with rfl
      rfl

/-! ### The claims -/

/-- C1: after any sequence of API operations starting from the empty store, at
most one cycle row has `is_active = true`; moreover a successful `start_cycle`
leaves the newly created cycle as the only active one (any previously active
cycle was deactivated first), and `get_or_create_active_cycle` only ever
creates inactive cycles. -/
theorem C1_at_most_one_active (ops : List Op) (p : StartPayload) (t : Store) (c : Cycle) :
    activeCount (runOps ops initStore) ≤ 1 ∧
    ((start_cycle (some p) (runOps ops initStore)).1 = Resp.ok 201 →
      ∀ cc ∈ (start_cycle (some p) (runOps ops initStore)).2.cycles,
        cc.is_active = true → cc.id = (runOps ops initStore).nextCycleId) ∧
    (c ∈ (get_or_create_active_cycle t).2.cycles → c ∉ t.cycles →
      c.is_active = false) := by
  have hInv := inv_runOps ops initStore inv_initStore
  refine ⟨hInv.1, ?_, ?_⟩
  · intro hok cc hcc hact
    rcases start_cycle_cases p (runOps ops initStore) with hne | ⟨g, skm, fp, heq⟩
    · exact absurd hok hne
    · rw [heq] at hcc
      exact startFresh_active_id g skm fp p.now _ hInv.1 cc hcc hact
  · exact get_or_create_new_inactive t c

/-- C1 witness: the theorem applied at concrete inputs — the empty trace, the
valid start payload, the empty store and the default cycle, with every
hypothesis discharged by computation. -/
theorem C1_witness :
    activeCount (runOps [Op.state] initStore) ≤ 1 ∧
    startedCycle1.id = (runOps [] initStore).nextCycleId ∧
    (defaultCycle 1).is_active = false := by
  refine ⟨(C1_at_most_one_active [Op.state] startPayload50 initStore (defaultCycle 1)).1,
    ?_, ?_⟩
  · exact (C1_at_most_one_active [] startPayload50 initStore (defaultCycle 1)).2.1
      (by decide) startedCycle1 (by decide) (by decide)
  · exact (C1_at_most_one_active [] startPayload50 initStore (defaultCycle 1)).2.2
      (by decide) (by decide)

/-- C3: for an active cycle, a valid earning add request creates an `Earning`
row with `amount = amountDelta` exactly when `amountDelta ≥ 0` (a negative
delta creates no row); in every case `cumulative_earnings` increases by the
delta and `current_period_earnings` is overwritten with `newPeriodTotal`; both
race counters increment by one exactly when the delta is strictly positive (a
delta of zero creates a row but does not increment them). -/
theorem C3_add_earning_semantics (s : Store) (p : EarnPayload) (cycle : Cycle)
    (av nv : JVal) (amount npt : ℚ)
    (hfind : get_active_cycle s = some cycle)
    (hav : p.amount = some av) (hnv : p.new_period_total = some nv)
    (hpa : pyDecimal av = some amount) (hpn : pyDecimal nv = some npt) :
    (add_earning (some p) s).1 = Resp.ok 200 ∧
    (add_earning (some p) s).2.earnings =
      (if 0 ≤ amount then
        s.earnings ++ [{ id := s.nextEarningId,
                         cycle_id := cycle.id,
                         timestamp := p.timestamp.getD p.now,
                         amount := amount }]
       else s.earnings) ∧
    (add_earning (some p) s).2.cycles = s.cycles.map (fun x =>
      if x.id = cycle.id then
        { cycle with
          current_period_earnings := npt,
          cumulative_earnings := cycle.cumulative_earnings + amount,
          current_period_race_count := if 0 < amount then
            cycle.current_period_race_count + 1 else cycle.current_period_race_count,
          cumulative_race_count := if 0 < amount then
            cycle.cumulative_race_count + 1 else cycle.cumulative_race_count }
      else x) := by
  have hcm := List.mem_of_find?_eq_some hfind
  have hact : cycle.is_active = true := List.find?_some hfind
  unfold add_earning
  rw [hfind]
  try dsimp only
  rw [hav, hnv]
  try dsimp only
  rw [hpa, hpn]
  try dsimp only
  by_cases hneg : amount < 0
  · rw [if_pos hneg, if_neg (not_le.mpr hneg)]
    rw [get_app_state_fix_update]
    · exact ⟨rfl, rfl, rfl⟩
    · exact cycle
    · exact hcm
    · rfl
    · exact hact
  · rw [if_neg hneg, if_pos (not_lt.mp hneg)]
    rw [get_app_state_fix_update]
    · exact ⟨rfl, rfl, rfl⟩
    · exact cycle
    · exact hcm
    · rfl
    · exact hact

/-- C3 witness: adding an earning of 5 with new period total 25 to the fixture
store yields exactly the expected row, totals and counter increments. -/
theorem C3_witness :
    (add_earning (some addEarnPayload5) storeA).1 = Resp.ok 200 ∧
    (add_earning (some addEarnPayload5) storeA).2.earnings
      = (if (0 : ℚ) ≤ 5 then
          storeA.earnings ++ [{ id := storeA.nextEarningId,
                                cycle_id := cycleA.id,
                                timestamp := addEarnPayload5.timestamp.getD addEarnPayload5.now,
                                amount := 5 }]
         else storeA.earnings) ∧
    (add_earning (some addEarnPayload5) storeA).2.cycles
      = storeA.cycles.map (fun x =>
        if x.id = cycleA.id then
          { cycleA with
            current_period_earnings := 25,
            cumulative_earnings := cycleA.cumulative_earnings + 5,
            current_period_race_count := if (0 : ℚ) < 5 then
              cycleA.current_period_race_count + 1 else cycleA.current_period_race_count,
            cumulative_race_count := if (0 : ℚ) < 5 then
              cycleA.cumulative_race_count + 1 else cycleA.cumulative_race_count }
        else x) :=
  C3_add_earning_semantics storeA addEarnPayload5 cycleA (JVal.jnum 5) (JVal.jnum 25)
    5 25 rfl rfl rfl rfl rfl

/-- C4: for an active cycle with a positive current-period total or race count,
`archive_period` answers 200 and commits: a new archive of type
"Período Parcial" whose `earningsDetails` equals the full (timestamp-ordered)
earnings list that existed immediately before the call appears in a subsequent
`GET /api/archives`; every earning row of the cycle is deleted; the period and
cumulative totals are all reset to zero; every expense row is untouched; and
the cycle stays active (only the four totals of its row change). -/
theorem C4_archive_period_semantics (s : Store) (p : PeriodReq) (cycle : Cycle)
    (hfind : get_active_cycle s = some cycle)
    (hnz : 0 < cycle.current_period_earnings ∨ 0 < cycle.current_period_race_count) :
    (archive_period p s).1 = Resp.ok 200 ∧
    (∃ v ∈ (get_archives (archive_period p s).2).1,
      v.data.archiveType = "Período Parcial" ∧
      v.data.earningsDetails = earningsAsc s cycle.id) ∧
    (archive_period p s).2.earnings
      = s.earnings.filter (fun e => decide (e.cycle_id ≠ cycle.id)) ∧
    (archive_period p s).2.expenses = s.expenses ∧
    (archive_period p s).2.cycles = s.cycles.map (fun x =>
      if x.id = cycle.id then
        { cycle with current_period_earnings := 0, current_period_race_count := 0,
                     cumulative_earnings := 0, cumulative_race_count := 0 }
      else x) := by
  have hcm := List.mem_of_find?_eq_some hfind
  have hact : cycle.is_active = true := List.find?_some hfind
  have hcond : ¬(cycle.current_period_earnings ≤ 0 ∧
      cycle.current_period_race_count ≤ 0) := by
    rcases hnz with h | h
    · exact fun hh => absurd h (not_lt.mpr hh.1)
    · exact fun hh => absurd h (not_lt.mpr hh.2)
  unfold archive_period
  rw [hfind]
  try dsimp only
  rw [if_neg hcond]
  try dsimp only
  rw [get_app_state_fix_update]
  · refine ⟨rfl, ?_, rfl, rfl, rfl⟩
    refine ⟨archiveToDict
      { id := s.nextArchiveId,
        archive_data := ArchiveData.periodoParcial
          { archiveDate := p.now,
            periodEarnings := cycle.current_period_earnings,
            periodRaceCount := cycle.current_period_race_count,
            periodEndDate := p.now,
            earningsDetails := earningsAsc s cycle.id,
            note := p.note,
            gasCostSnapshot := cycle.gas_cost,
            cycleProfitSnapshot := cycle.cumulative_earnings - cycle.gas_cost
              - ((expensesAsc s cycle.id).map (fun e => e.amount)).sum },
        archive_date := p.now }, ?_, rfl, rfl⟩
    show archiveToDict _ ∈ archivesDesc _
    unfold archivesDesc
    apply List.mem_map.mpr
    refine ⟨_, ?_, rfl⟩
    rw [List.mem_insertionSort]
    exact List.mem_append_right _ (List.mem_singleton_self _)
  · exact cycle
  · exact hcm
  · rfl
  · exact hact

/-- C4 witness: the theorem applied to the fixture store (active cycle with
current period earnings 20 and one earning row). -/
theorem C4_witness :
    (archive_period periodReq40 storeA).1 = Resp.ok 200 ∧
    (∃ v ∈ (get_archives (archive_period periodReq40 storeA).2).1,
      v.data.archiveType = "Período Parcial" ∧
      v.data.earningsDetails = earningsAsc storeA cycleA.id) ∧
    (archive_period periodReq40 storeA).2.earnings
      = storeA.earnings.filter (fun e => decide (e.cycle_id ≠ cycleA.id)) ∧
    (archive_period periodReq40 storeA).2.expenses = storeA.expenses ∧
    (archive_period periodReq40 storeA).2.cycles = storeA.cycles.map (fun x =>
      if x.id = cycleA.id then
        { cycleA with current_period_earnings := 0, current_period_race_count := 0,
                      cumulative_earnings := 0, cumulative_race_count := 0 }
      else x) :=
  C4_archive_period_semantics storeA periodReq40 cycleA rfl (Or.inl (by decide))

/-- C5 counterexample: on the empty store (no cycle exists at all), two
consecutive `getOrCreateActive` calls with no other writes return cycles with
the different ids 1 and 2, because the first call creates an inactive cycle
which the second call's active-cycle query does not find. -/
theorem C5_counterexample :
    (get_or_create_active_cycle initStore).1.id = 1 ∧
    (get_or_create_active_cycle (get_or_create_active_cycle initStore).2).1.id = 2 ∧
    (get_or_create_active_cycle (get_or_create_active_cycle initStore).2).1.id
      ≠ (get_or_create_active_cycle initStore).1.id := by
  decide

/-- C5 (amended): two `getOrCreateActive` calls with no intervening writes
return the same cycle id exactly when an active cycle exists (then the call is
a pure read); when no active cycle exists, each call creates a fresh inactive
cycle, so the two calls return the distinct ids `nextCycleId` and
`nextCycleId + 1`. -/
theorem C5_get_or_create_idempotence (s : Store) :
    (∀ c, get_active_cycle s = some c →
      (get_or_create_active_cycle s).2 = s ∧
      (get_or_create_active_cycle s).1 = c ∧
      (get_or_create_active_cycle (get_or_create_active_cycle s).2).1 = c) ∧
    (get_active_cycle s = none →
      (get_or_create_active_cycle s).1.id = s.nextCycleId ∧
      (get_or_create_active_cycle (get_or_create_active_cycle s).2).1.id
        = s.nextCycleId + 1) := by
  constructor
  · intro c hc
    have h2 : (get_or_create_active_cycle s).2 = s := by
      unfold get_or_create_active_cycle
      rw [hc]
    have h1 : (get_or_create_active_cycle s).1 = c := by
      unfold get_or_create_active_cycle
      rw [hc]
    refine ⟨h2, h1, ?_⟩
    rw [h2, h1]
  · intro hn
    have e2 : (get_or_create_active_cycle s).2
        = { s with cycles := s.cycles ++ [defaultCycle s.nextCycleId],
                   nextCycleId := s.nextCycleId + 1 } := by
      unfold get_or_create_active_cycle
      rw [hn]
    constructor
    · show ((get_or_create_active_cycle s).1).id = s.nextCycleId
      unfold get_or_create_active_cycle
      rw [hn]
      rfl
    · rw [e2]
      unfold get_or_create_active_cycle
      rw [get_active_after_create s hn]
      rfl

/-- C5 witness: the amended theorem applied at a store with an active cycle
(both calls return `cycleA`) and at a store with only an inactive cycle (the
two calls return ids 2 and 3). -/
theorem C5_witness :
    ((get_or_create_active_cycle storeA).2 = storeA ∧
      (get_or_create_active_cycle storeA).1 = cycleA ∧
      (get_or_create_active_cycle (get_or_create_active_cycle storeA).2).1 = cycleA) ∧
    ((get_or_create_active_cycle storeI).1.id = storeI.nextCycleId ∧
      (get_or_create_active_cycle (get_or_create_active_cycle storeI).2).1.id
        = storeI.nextCycleId + 1) :=
  ⟨(C5_get_or_create_idempotence storeA).1 cycleA rfl,
   (C5_get_or_create_idempotence storeI).2 rfl⟩

/-- C9: `GET /api/state` is not read-only — whenever no cycle row is active
(even if inactive rows exist), handling the request appends and commits a
brand-new inactive cycle row with zeroed totals. -/
theorem C9_state_creates_inactive_cycle (s : Store) (h : get_active_cycle s = none) :
    (get_app_state s).2.cycles = s.cycles ++ [defaultCycle s.nextCycleId] ∧
    (defaultCycle s.nextCycleId).is_active = false ∧
    (defaultCycle s.nextCycleId).cumulative_earnings = 0 ∧
    (defaultCycle s.nextCycleId).cumulative_race_count = 0 ∧
    (defaultCycle s.nextCycleId).current_period_earnings = 0 ∧
    (defaultCycle s.nextCycleId).current_period_race_count = 0 := by
  refine ⟨?_, rfl, rfl, rfl, rfl, rfl⟩
  rw [get_app_state_snd]
  unfold get_or_create_active_cycle
  rw [h]

/-- C2 counterexample: on an active cycle with totals 20, the earning add
operation with delta −25 and new period total −5 succeeds and leaves both
`cumulative_earnings` and `current_period_earnings` strictly negative, so the
claim fails for the earnings totals (`add_earning` never clamps them). -/
theorem C2_counterexample :
    ∃ c ∈ (add_earning (some negEarnPayload) storeA).2.cycles,
      c.cumulative_earnings < 0 ∧ c.current_period_earnings < 0 := by
  decide

/-- C2 (amended): for every sequence of earning add/edit/delete operations on a
store whose race counters are nonnegative, `cumulativeRaceCount` and
`currentPeriodRaceCount` of every cycle are still nonnegative afterwards (the
earnings totals, by contrast, can go negative). -/
theorem C2_race_counters_nonneg (ops : List EarnOp) (s : Store) (h : RaceNonneg s) :
    RaceNonneg (runEarnOps ops s) :=
  raceNonneg_runEarnOps ops s h

/-- C2 witness: the amended theorem applied to the concrete fixture store and a
concrete add/edit/delete trace. -/
theorem C2_witness :
    RaceNonneg storeA ∧
    RaceNonneg (runEarnOps [EarnOp.add (some negEarnPayload), EarnOp.del 1] storeA) :=
  ⟨by unfold RaceNonneg; decide,
   C2_race_counters_nonneg _ storeA (by unfold RaceNonneg; decide)⟩

/-- C6: for an active cycle whose `start_km` is present, finalize with a
parseable `end_km` strictly below `start_km` answers 400 and leaves the store
untouched: no archive row is created and the cycle stays active with every
field unchanged, including `end_km`. -/
theorem C6_finalize_rejects_low_end_km (s : Store) (p : FinalizePayload)
    (cycle : Cycle) (sk ek : Int) (v : JVal)
    (hfind : get_active_cycle s = some cycle)
    (hsk : cycle.start_km = some sk)
    (hv : jget p.end_km = some v) (hp : pyInt v = some ek) (hlt : ek < sk) :
    (finalize_cycle p s).1 = Resp.err 400 ("KM Final (" ++ toString ek ++
      ") não pode ser menor que Inicial (" ++ toString sk ++ ")") ∧
    (finalize_cycle p s).2 = s := by
  unfold finalize_cycle
  rw [hfind]
  try dsimp only
  rw [hv]
  try dsimp only
  rw [hp]
  try dsimp only [Option.map]
  rw [hsk]
  try dsimp only
  rw [if_pos hlt]
  exact ⟨rfl, rfl⟩

/-- C6 witness: finalizing `storeA` (active cycle with `start_km` 1000) with
`end_km` 500 is rejected with 400 and the store is unchanged. -/
theorem C6_witness :
    (finalize_cycle { end_km := some (JVal.jnum 500), note := "", now := 20 } storeA).1
      = Resp.err 400 ("KM Final (" ++ toString (500 : Int) ++
        ") não pode ser menor que Inicial (" ++ toString (1000 : Int) ++ ")") ∧
    (finalize_cycle { end_km := some (JVal.jnum 500), note := "", now := 20 } storeA).2
      = storeA :=
  C6_finalize_rejects_low_end_km storeA _ cycleA 1000 500 (JVal.jnum 500)
    rfl rfl rfl rfl (by decide)

/-- C7 (the code contradicts the claim and its own inline comment): finalizing
an active cycle with an `end_km` that is present but not parseable as an
integer does not fall back to `start_km` — `int()` raises ValueError, which the
handler catches and turns into a 400 response, leaving the store unchanged (no
archive is created).  An absent `end_km`, by contrast, does default to
`start_km` and succeeds. -/
theorem C7_invalid_end_km_rejected :
    (finalize_cycle { end_km := some (JVal.jstr "abc"), note := "", now := 20 } storeA).1
      = Resp.err 400 "Valor inválido para KM final" ∧
    (finalize_cycle { end_km := some (JVal.jstr "abc"), note := "", now := 20 }
      storeA).2 = storeA ∧
    (finalize_cycle { end_km := none, note := "", now := 20 } storeA).1
      = Resp.ok 200 ∧
    ((finalize_cycle { end_km := none, note := "", now := 20 } storeA).2.archives.map
      (fun a => a.archive_data.archiveType)) = ["Ciclo Completo"] := by
  decide

/-- C8 counterexample: `PUT /api/cycles/current` with a negative `gas_cost`
patch on an active cycle is accepted (HTTP 200) and commits a cycle row whose
`gas_cost` is strictly negative — `update_cycle_fields` applies `gas_cost`
without any validation. -/
theorem C8_counterexample :
    (update_cycle_fields (some negGasPatch) storeA).1 = Resp.ok 200 ∧
    ∃ c ∈ (update_cycle_fields (some negGasPatch) storeA).2.cycles,
      c.gas_cost < 0 := by
  decide

/-- C8 (amended): after any sequence of API operations from the empty store
that never uses `PUT /api/cycles/current`, every cycle row's `gas_cost` is
nonnegative (`start_cycle` validates `gas_cost > 0`, the bootstrap default is
0, and no other handler writes the field); `update_cycle_fields` however
applies a present `gas_cost` with no validation, so a negative patch breaks
the invariant. -/
theorem C8_gas_nonneg_without_update (ops : List Op)
    (hops : ∀ op ∈ ops, op.isUpdate = false) :
    GasNonneg (runOps ops initStore) :=
  gasNonneg_runOps ops initStore hops gasNonneg_initStore

/-- C8 witness: the amended theorem applied to a concrete trace (state fetch,
then a start with gas cost 50). -/
theorem C8_witness :
    (∀ op ∈ [Op.state, Op.startC (some startPayload50)], op.isUpdate = false) ∧
    GasNonneg (runOps [Op.state, Op.startC (some startPayload50)] initStore) :=
  ⟨by decide, C8_gas_nonneg_without_update _ (by decide)⟩

/-- C10: a start request whose `start_km` and `fuel_price` are the JSON number
0 succeeds (201) but stores both fields as null, because field presence is
tested by Python truthiness (`if start_km_str`); consequently the cycle behaves
as if `start_km` were absent: finalizing it with no `end_km` succeeds (the
endKm-versus-startKm check is skipped) and the full-cycle archive records
`summary_kmDriven = 0` with null start and end km. -/
theorem C10_zero_start_km_stored_null (s : Store) (g : ℚ) (note : String)
    (t t2 : Nat) (hcnt : activeCount s ≤ 1) (hg : 0 < g) :
    (start_cycle (some (zeroKmStart g t)) s).1 = Resp.ok 201 ∧
    (∃ c, (start_cycle (some (zeroKmStart g t)) s).2.cycles.getLast? = some c ∧
      c.is_active = true ∧ c.start_km = none ∧ c.fuel_price_per_liter = none) ∧
    (finalize_cycle { end_km := none, note := note, now := t2 }
      (start_cycle (some (zeroKmStart g t)) s).2).1 = Resp.ok 200 ∧
    (∃ fp : FullPayload,
      (finalize_cycle { end_km := none, note := note, now := t2 }
        (start_cycle (some (zeroKmStart g t)) s).2).2.archives
        = (start_cycle (some (zeroKmStart g t)) s).2.archives
          ++ [{ id := (start_cycle (some (zeroKmStart g t)) s).2.nextArchiveId,
                archive_data := ArchiveData.cicloCompleto fp,
                archive_date := t2 }] ∧
      fp.summary_kmDriven = 0 ∧ fp.startKM = none ∧ fp.endKM = none) := by
  have ht : truthy (JVal.jnum 0) = false := by decide
  have hsc : start_cycle (some (zeroKmStart g t)) s
      = (Resp.ok 201, startFresh g none none t s) := by
    unfold start_cycle zeroKmStart
    dsimp only [jget, pyDecimal]
    rw [if_neg (not_le.mpr hg), ht]
    rfl
  have hfind' : get_active_cycle (startFresh g none none t s)
      = some { id := (deactivateFirstActive s).nextCycleId, gas_cost := g,
               start_km := none, end_km := none, fuel_price_per_liter := none,
               is_active := true, start_time := t, cumulative_earnings := 0,
               cumulative_race_count := 0, current_period_earnings := 0,
               current_period_race_count := 0 } := by
    unfold startFresh get_active_cycle
    dsimp only
    rw [find?_append_of_none _ _ (deactivate_all_inactive s hcnt)]
    rfl
  have harch : ∀ X : Store, (get_app_state X).2.archives = X.archives := by
    intro X
    rw [get_app_state_snd]
    exact get_or_create_archives X
  rw [hsc]
  dsimp only
  refine ⟨rfl, ?_, ?_, ?_⟩
  · refine ⟨{ id := (deactivateFirstActive s).nextCycleId, gas_cost := g,
              start_km := none, end_km := none, fuel_price_per_liter := none,
              is_active := true, start_time := t, cumulative_earnings := 0,
              cumulative_race_count := 0, current_period_earnings := 0,
              current_period_race_count := 0 }, ?_, rfl, rfl, rfl⟩
    show ((deactivateFirstActive s).cycles ++ _).getLast? = _
    rw [List.getLast?_concat]
  · unfold finalize_cycle
    rw [hfind']
    rfl
  · unfold finalize_cycle
    rw [hfind']
    dsimp only [jget]
    unfold finalizeCommit
    dsimp only
    rw [harch]
    exact ⟨_, rfl, rfl, rfl, rfl⟩

/-- C10 witness: the theorem applied to the fixture store with gas cost 50. -/
theorem C10_witness :
    (start_cycle (some (zeroKmStart 50 30)) storeA).1 = Resp.ok 201 ∧
    (∃ c, (start_cycle (some (zeroKmStart 50 30)) storeA).2.cycles.getLast? = some c ∧
      c.is_active = true ∧ c.start_km = none ∧ c.fuel_price_per_liter = none) ∧
    (finalize_cycle { end_km := none, note := "", now := 31 }
      (start_cycle (some (zeroKmStart 50 30)) storeA).2).1 = Resp.ok 200 ∧
    (∃ fp : FullPayload,
      (finalize_cycle { end_km := none, note := "", now := 31 }
        (start_cycle (some (zeroKmStart 50 30)) storeA).2).2.archives
        = (start_cycle (some (zeroKmStart 50 30)) storeA).2.archives
          ++ [{ id := (start_cycle (some (zeroKmStart 50 30)) storeA).2.nextArchiveId,
                archive_data := ArchiveData.cicloCompleto fp,
                archive_date := 31 }] ∧
      fp.summary_kmDriven = 0 ∧ fp.startKM = none ∧ fp.endKM = none) :=
  C10_zero_start_km_stored_null storeA 50 "" 30 31 (by decide) (by decide)

/-- C9 witness: the theorem applied to a store that already holds an inactive
cycle row; `GET /api/state` still inserts a second, new inactive cycle. -/
theorem C9_witness :
    (get_app_state storeI).2.cycles = storeI.cycles ++ [defaultCycle storeI.nextCycleId] ∧
    (defaultCycle storeI.nextCycleId).is_active = false ∧
    (defaultCycle storeI.nextCycleId).cumulative_earnings = 0 ∧
    (defaultCycle storeI.nextCycleId).cumulative_race_count = 0 ∧
    (defaultCycle storeI.nextCycleId).current_period_earnings = 0 ∧
    (defaultCycle storeI.nextCycleId).current_period_race_count = 0 :=
  C9_state_creates_inactive_cycle storeI rfl

end Ubeleza
